import Mathlib

/-!
# ICCom protocol engine — verification development

Shallow embedding of the ICCom (Inter-Chip Communication) protocol engine
kernel module: CRC32 codec, package codec, packet codec, RX message storage
with commit/rollback, TX package queue and the frame state machine, together
with theorems about the behaviour of these operations.

Buffers are modelled as `List Nat` of byte values; machine integers are
modelled as `Nat`/`Int` with explicit truncation (`% 256`, `% 2^32`) exactly
where the C code casts.  Fallible operations return `Option`/`Except`.
Kernel allocation failures (`kmalloc` returning NULL) are not modelled: the
embedding corresponds to executions in which allocations succeed.
Mutexes/locking are irrelevant to the sequential semantics embedded here.
-/

namespace ICCom

/-! ## General configuration constants (from the source defines) -/

def ICCOM_INITIAL_PACKAGE_ID : Int := 1

def ICCOM_PACKAGE_EMPTY_PAYLOAD_VALUE : Nat := 0xFF

def ICCOM_PACKAGE_PAYLOAD_DATA_LENGTH_FIELD_SIZE_BYTES : Nat := 2

def ICCOM_PACKAGE_ID_FIELD_SIZE_BYTES : Nat := 1

def ICCOM_PACKAGE_CRC_FIELD_SIZE_BYTES : Nat := 4

def ICCOM_PACKET_HEADER_SIZE_BYTES : Nat := 4

def ICCOM_PACKAGE_ACK_VALUE : Nat := 0xD0

def ICCOM_PACKAGE_NACK_VALUE : Nat := 0xE1

def ICCOM_PACKET_INVALID_MESSAGE_ID : Nat := 0

def ICCOM_PACKET_INITIAL_MESSAGE_ID : Nat := 1

def ICCOM_PACKET_MIN_CHANNEL_ID : Nat := 0

def ICCOM_PACKET_MAX_CHANNEL_ID : Nat := 0x7FFF

/-- Error numbers (positive values of the Linux errno constants the driver
returns negated). -/
def ENOMEM : Int := 12

def EINVAL : Int := 22

def ENODATA : Int := 61

def EBADF : Int := 9

def EACCES : Int := 13

def EBADFD : Int := 77

def EBADMSG : Int := 74

def EALREADY : Int := 114

def ENODEV : Int := 19

def EBADSLT : Int := 57

/-! ## Raw byte-buffer primitives

The C code manipulates raw `uint8_t` buffers through pointer arithmetic.
We model a buffer as a `List Nat` and reads/writes through the following
primitives; multi-byte loads/stores spell out the endianness the source
uses (`__be16` for payload lengths, little-endian `u32` for the CRC). -/

/-- Read one byte of the buffer (out-of-range reads yield 0; all modelled
code only reads in range). -/
def getByte (l : List Nat) (i : Nat) : Nat := l.getD i 0

/-- Overwrite `bs.length` bytes of `l` starting at offset `off`. -/
def writeBytes (l : List Nat) (off : Nat) (bs : List Nat) : List Nat :=
  l.take off ++ bs ++ l.drop (off + bs.length)

/-- Big-endian 16-bit load (as `__be16_to_cpu` on a 2-byte field). -/
def read2BE (l : List Nat) (off : Nat) : Nat :=
  256 * getByte l off + getByte l (off + 1)

/-- Big-endian 16-bit store of `v` truncated to 16 bits
(as `__cpu_to_be16((uint16_t)v)`). -/
def write2BE (l : List Nat) (off : Nat) (v : Nat) : List Nat :=
  writeBytes l off [v % 65536 / 256, v % 256]

/-- Little-endian 32-bit load (the native `u32` load of the CRC field on the
little-endian targets the driver runs on). -/
def read4LE (l : List Nat) (off : Nat) : Nat :=
  getByte l off + 256 * getByte l (off + 1)
    + 65536 * getByte l (off + 2) + 16777216 * getByte l (off + 3)

/-- Little-endian 32-bit store of `v` truncated to 32 bits. -/
def write4LE (l : List Nat) (off : Nat) (v : Nat) : List Nat :=
  writeBytes l off
    [v % 256, v / 256 % 256, v / 65536 % 256, v / 16777216 % 256]

theorem writeBytes_length (l : List Nat) (off : Nat) (bs : List Nat)
    (h : off + bs.length ≤ l.length) :
    (writeBytes l off bs).length = l.length := by
  simp only [writeBytes, List.length_append, List.length_take, List.length_drop]
  omega

theorem getByte_writeBytes_lt (l : List Nat) (off : Nat) (bs : List Nat)
    (i : Nat) (hi : i < off) (hoff : off ≤ l.length) :
    getByte (writeBytes l off bs) i = getByte l i := by
  simp only [getByte, writeBytes]
  have hlt : i < (l.take off).length := by simp; omega
  rw [List.append_assoc, List.getD_append _ _ _ _ hlt]
  rw [List.getD_eq_getElem _ _ hlt, List.getD_eq_getElem _ _ (by omega : i < l.length)]
  simp

theorem getByte_writeBytes_in (l : List Nat) (off : Nat) (bs : List Nat)
    (i : Nat) (h₁ : off ≤ i) (h₂ : i < off + bs.length) (hoff : off ≤ l.length) :
    getByte (writeBytes l off bs) i = bs.getD (i - off) 0 := by
  simp only [getByte, writeBytes]
  have htk : (l.take off).length = off := by simp; omega
  rw [List.append_assoc, List.getD_append_right _ _ _ _ (by rw [htk]; omega)]
  rw [htk, List.getD_append _ _ _ _ (by omega : i - off < bs.length)]

theorem getByte_writeBytes_ge (l : List Nat) (off : Nat) (bs : List Nat)
    (i : Nat) (h₁ : off + bs.length ≤ i) (hoff : off + bs.length ≤ l.length) :
    getByte (writeBytes l off bs) i = getByte l i := by
  simp only [getByte, writeBytes]
  have htk : (l.take off).length = off := by simp; omega
  rw [List.append_assoc, List.getD_append_right _ _ _ _ (by rw [htk]; omega)]
  rw [htk, List.getD_append_right _ _ _ _ (by omega : bs.length ≤ i - off)]
  by_cases hi : i < l.length
  · rw [List.getD_eq_getElem _ _ (by simp; omega), List.getD_eq_getElem _ _ hi]
    simp only [List.getElem_drop]
    have hidx : off + bs.length + (i - off - bs.length) = i := by omega
    simp [hidx]
  · rw [List.getD_eq_default _ _ (by simp; omega), List.getD_eq_default _ _ (by omega)]

theorem take_writeBytes (l : List Nat) (off : Nat) (bs : List Nat)
    (n : Nat) (h : n ≤ off) (hn : n ≤ l.length) :
    (writeBytes l off bs).take n = l.take n := by
  simp only [writeBytes]
  rw [List.take_append_of_le_length (by simp; omega)]
  rw [List.take_append_of_le_length (by simp; omega)]
  rw [List.take_take, Nat.min_eq_left h]

/-! ## CRC32 codec (`__iccom_crc32_gen_lookup_table`, `__iccom_compute_crc32`)

Little-endian CRC32, polynomial `0xEDB88320`, init `0xFFFFFFFF`, final
one's-complement. The 256-entry table is modelled as a function of the
index; each entry is 8 iterations of the shift-xor step. -/

/-- One iteration of the table-generation inner loop:
`crc = (crc & 1) ? ((crc >> 1) ^ POLYNOMIAL) : (crc >> 1)`. -/
def iccom_crc32_gen_step (crc : Nat) : Nat :=
  if crc % 2 = 1 then (crc / 2) ^^^ 0xEDB88320 else crc / 2

/-- Entry `i` of the CRC32 lookup table (`iccom_crc32_lookup_tbl[i]`). -/
def iccom_crc32_lookup_tbl (i : Nat) : Nat :=
  iccom_crc32_gen_step^[8] i

/-- `__iccom_compute_crc32`: byte-wise CRC32,
`crc = (crc >> 8) ^ table[(crc ^ data[i]) & 0xFF]`, with init and final
complement `~crc` (modelled as XOR with `0xFFFFFFFF`, which agrees with
the `uint32_t` complement because the accumulator stays below `2^32`). -/
def __iccom_compute_crc32 (data : List Nat) : Nat :=
  0xFFFFFFFF ^^^
    data.foldl
      (fun crc b => (crc >>> 8) ^^^ iccom_crc32_lookup_tbl ((crc ^^^ b) % 256))
      0xFFFFFFFF

theorem iccom_crc32_gen_step_lt (crc : Nat) (h : crc < 2 ^ 32) :
    iccom_crc32_gen_step crc < 2 ^ 32 := by
  unfold iccom_crc32_gen_step
  split
  · exact Nat.xor_lt_two_pow (by omega) (by norm_num)
  · omega

theorem iccom_crc32_lookup_tbl_lt (i : Nat) (h : i < 2 ^ 32) :
    iccom_crc32_lookup_tbl i < 2 ^ 32 := by
  unfold iccom_crc32_lookup_tbl
  have : ∀ n x, x < 2 ^ 32 → iccom_crc32_gen_step^[n] x < 2 ^ 32 := by
    intro n
    induction n with
    | zero => intro x hx; simpa using hx
    | succ n ih =>
        intro x hx
        rw [Function.iterate_succ_apply]
        exact ih _ (iccom_crc32_gen_step_lt x hx)
  exact this 8 i h

theorem __iccom_compute_crc32_lt (data : List Nat) :
    __iccom_compute_crc32 data < 2 ^ 32 := by
  unfold __iccom_compute_crc32
  refine Nat.xor_lt_two_pow (by norm_num) ?_
  induction data using List.reverseRecOn with
  | nil => norm_num
  | append_singleton xs x ih =>
      rw [List.foldl_append]
      refine Nat.xor_lt_two_pow ?_ ?_
      · rw [Nat.shiftRight_eq_div_pow]
        exact lt_of_le_of_lt (Nat.div_le_self _ _) ih
      · exact iccom_crc32_lookup_tbl_lt _ (lt_of_lt_of_le (Nat.mod_lt _ (by norm_num)) (by norm_num))

/-! ## Package codec

A package is one fixed-size frame:
`[payload_length u16 BE][id u8][payload ...][fill 0xFF ...][crc32 u32 LE]`.
The C `struct iccom_package` keeps the buffer and its size; the size always
equals the buffer length, so we keep only the byte buffer. -/

structure iccom_package where
  data : List Nat
  deriving Repr, DecidableEq

namespace iccom_package

/-- `package->size`: the size of the frame buffer in bytes. -/
def size (p : iccom_package) : Nat := p.data.length

end iccom_package

/-- `__iccom_package_payload_room_size`: total payload space of the frame. -/
def __iccom_package_payload_room_size (p : iccom_package) : Nat :=
  p.size - ICCOM_PACKAGE_PAYLOAD_DATA_LENGTH_FIELD_SIZE_BYTES
    - ICCOM_PACKAGE_ID_FIELD_SIZE_BYTES
    - ICCOM_PACKAGE_CRC_FIELD_SIZE_BYTES

/-- `__iccom_package_set_payload_size`: stores the length, 16-bit big-endian. -/
def __iccom_package_set_payload_size (p : iccom_package) (length : Nat) :
    iccom_package :=
  ⟨write2BE p.data 0 length⟩

/-- `__iccom_package_payload_size` with its `ok__out` flag: the declared
length if it does not exceed the payload room, else `(0, false)`. -/
def __iccom_package_payload_size (p : iccom_package) : Nat × Bool :=
  let declared := read2BE p.data 0
  if declared ≤ __iccom_package_payload_room_size p
    then (declared, true) else (0, false)

/-- Offset of the first payload byte (`__iccom_package_payload_start_addr`). -/
def __iccom_package_payload_start_offset : Nat :=
  ICCOM_PACKAGE_PAYLOAD_DATA_LENGTH_FIELD_SIZE_BYTES
    + ICCOM_PACKAGE_ID_FIELD_SIZE_BYTES

/-- `__iccom_package_get_payload_free_space` with its `ok__out` flag. -/
def __iccom_package_get_payload_free_space (p : iccom_package) : Nat × Bool :=
  let (s, ok) := __iccom_package_payload_size p
  (__iccom_package_payload_room_size p - s, ok)

/-- `__iccom_package_set_id`: stores `(uint8_t)id` at offset 2. -/
def __iccom_package_set_id (p : iccom_package) (id : Int) : iccom_package :=
  ⟨writeBytes p.data ICCOM_PACKAGE_PAYLOAD_DATA_LENGTH_FIELD_SIZE_BYTES
    [(id % 256).toNat]⟩

/-- `__iccom_package_get_id`: reads the id byte back as a C `int`. -/
def __iccom_package_get_id (p : iccom_package) : Int :=
  (getByte p.data ICCOM_PACKAGE_PAYLOAD_DATA_LENGTH_FIELD_SIZE_BYTES : Int)

/-- `__iccom_package_set_src`: stores the CRC, 32-bit little-endian, in the
last four bytes of the frame. -/
def __iccom_package_set_src (p : iccom_package) (src : Nat) : iccom_package :=
  ⟨write4LE p.data (p.size - ICCOM_PACKAGE_CRC_FIELD_SIZE_BYTES) src⟩

/-- `__iccom_package_get_src`: reads the stored CRC back. -/
def __iccom_package_get_src (p : iccom_package) : Nat :=
  read4LE p.data (p.size - ICCOM_PACKAGE_CRC_FIELD_SIZE_BYTES)

/-- Offset of the first free payload byte
(`__iccom_package_get_free_space_start_addr`). -/
def __iccom_package_free_space_start_offset (p : iccom_package) : Nat :=
  p.size - ICCOM_PACKAGE_CRC_FIELD_SIZE_BYTES
    - (__iccom_package_get_payload_free_space p).1

/-- `__iccom_package_fill_unused_payload`: `memset`s the free payload area
with `symbol`. -/
def __iccom_package_fill_unused_payload (p : iccom_package) (symbol : Nat) :
    iccom_package :=
  let free := (__iccom_package_get_payload_free_space p).1
  if free = 0 then p
  else ⟨writeBytes p.data (__iccom_package_free_space_start_offset p)
          (List.replicate free symbol)⟩

/-- The 4-bytes-at-a-time comparison loop of
`__iccom_package_check_unused_payload` (`*(int32_t*)start != val32`). -/
def __iccom_check_words (l : List Nat) (val32 : Nat) : Nat → Nat → Bool
  | _, 0 => true
  | start, cnt + 1 =>
      (read4LE l start == val32) && __iccom_check_words l val32 (start + 4) cnt

/-- The byte-remainder comparison loop of
`__iccom_package_check_unused_payload`. -/
def __iccom_check_bytes (l : List Nat) (symbol : Nat) : Nat → Nat → Bool
  | _, 0 => true
  | start, cnt + 1 =>
      (getByte l start == symbol) && __iccom_check_bytes l symbol (start + 1) cnt

/-- `__iccom_package_check_unused_payload`: true iff all free payload bytes
equal `symbol`; checked word-wise then byte-wise as in the source. -/
def __iccom_package_check_unused_payload (p : iccom_package) (symbol : Nat) :
    Bool :=
  let (free, ok) := __iccom_package_get_payload_free_space p
  if !ok then false
  else
    let start := __iccom_package_free_space_start_offset p
    let val32 := symbol ||| (symbol <<< 8) ||| (symbol <<< 16) ||| (symbol <<< 24)
    __iccom_check_words p.data val32 start (free / 4)
      && __iccom_check_bytes p.data symbol (start + 4 * (free / 4)) (free % 4)

/-- `__iccom_package_compute_src`: CRC32 over all bytes before the CRC field. -/
def __iccom_package_compute_src (p : iccom_package) : Nat :=
  __iccom_compute_crc32
    (p.data.take (p.size - ICCOM_PACKAGE_CRC_FIELD_SIZE_BYTES))

/-- `__iccom_package_finalize`: fill the unused payload with `0xFF` and store
the recomputed CRC. -/
def __iccom_package_finalize (p : iccom_package) : iccom_package :=
  let filled := __iccom_package_fill_unused_payload p
                  ICCOM_PACKAGE_EMPTY_PAYLOAD_VALUE
  __iccom_package_set_src filled (__iccom_package_compute_src filled)

/-- `__iccom_package_make_empty`: zero payload length, then finalize. -/
def __iccom_package_make_empty (p : iccom_package) : iccom_package :=
  __iccom_package_finalize (__iccom_package_set_payload_size p 0)

/-- `__iccom_package_init`: a fresh frame buffer of `package_size_bytes`
bytes with payload length set to 0. The `kmalloc`ed buffer contents are
unspecified in C; they are modelled as zero bytes (every byte of a package
that is ever read or sent is written first). -/
def __iccom_package_init (package_size_bytes : Nat) : iccom_package :=
  __iccom_package_set_payload_size ⟨List.replicate package_size_bytes 0⟩ 0

/-- `__iccom_verify_package_crc`: stored CRC equals recomputed CRC. -/
def __iccom_verify_package_crc (p : iccom_package) : Bool :=
  __iccom_package_get_src p == __iccom_package_compute_src p

/-- `__iccom_verify_package_data`: payload size in range, free payload area
filled with `0xFF`, CRC correct; returns the payload size, or `-1` on any
failure. Pure: it only reads the frame. -/
def __iccom_verify_package_data (p : iccom_package) : Int :=
  let (psize, ok) := __iccom_package_payload_size p
  if !ok then -1
  else if !__iccom_package_check_unused_payload p
            ICCOM_PACKAGE_EMPTY_PAYLOAD_VALUE then -1
  else if !__iccom_verify_package_crc p then -1
  else (psize : Int)

/-- `__iccom_verify_ack`: the frame is the ack-xfer size and its first byte
is the ACK value. `ack_xfer_size` stands for the build-time constant
`ICCOM_ACK_XFER_SIZE_BYTES`. -/
def __iccom_verify_ack (ack_xfer_size : Nat) (p : iccom_package) : Bool :=
  (p.size == ack_xfer_size) && (getByte p.data 0 == ICCOM_PACKAGE_ACK_VALUE)

/-! ## Packet codec

A packet is a variable-length record inside the package payload:
2-byte big-endian payload length, 1-byte LUN, 1 byte `complete:1 (bit 7)`
over `CID:7 (low bits)`, then the payload bytes. -/

/-- `iccom_packet_packet_size_bytes`. -/
def iccom_packet_packet_size_bytes (payload_size : Nat) : Nat :=
  ICCOM_PACKET_HEADER_SIZE_BYTES + payload_size

/-- `iccom_packet_min_packet_size_bytes`. -/
def iccom_packet_min_packet_size_bytes : Nat :=
  iccom_packet_packet_size_bytes 1

/-- `iccom_packet_channel_lun`: `(uint8_t)((channel >> 7) & 0xFF)`. -/
def iccom_packet_channel_lun (channel : Nat) : Nat :=
  channel >>> 7 % 256

/-- `iccom_packet_channel_sid`: `(uint8_t)(channel & 0x7F)`. -/
def iccom_packet_channel_sid (channel : Nat) : Nat :=
  channel % 128

/-- `iccom_packet_luncid_channel`: `(lun << 7) | (cid & 0x7F)`. -/
def iccom_packet_luncid_channel (lun cid : Nat) : Nat :=
  (lun <<< 7) ||| (cid % 128)

/-- `iccom_packet_write_header`: the four header bytes for a packet.
Byte 3 carries `CID` in its low 7 bits and the `complete` flag in bit 7
(explicit layout of the `cid:7; complete:1` bitfield). -/
def iccom_packet_write_header (payload_size_bytes : Nat) (channel : Nat)
    (message_complete : Bool) : List Nat :=
  [payload_size_bytes % 65536 / 256, payload_size_bytes % 256
   , iccom_packet_channel_lun channel
   , iccom_packet_channel_sid channel + (if message_complete then 128 else 0)]

/-- The parsed-packet record (`struct iccom_packet`). The payload slice
stands for the C payload pointer + length pair. -/
structure iccom_packet where
  payload : List Nat
  payload_length : Nat
  channel : Nat
  finalizing : Bool
  deriving Repr, DecidableEq

/-- `__iccom_packet_parse_into_struct`: parse one packet from the remaining
window (`max_bytes_available = window.length`); `none` models the `-EINVAL`
/invalidated-packet result. -/
def __iccom_packet_parse_into_struct (window : List Nat) :
    Option iccom_packet :=
  if window.length < iccom_packet_min_packet_size_bytes then none
  else
    let plen := read2BE window 0
    if iccom_packet_packet_size_bytes plen > window.length then none
    else some
      { payload := (window.drop ICCOM_PACKET_HEADER_SIZE_BYTES).take plen
        , payload_length := plen
        , channel := iccom_packet_luncid_channel (getByte window 2)
                       (getByte window 3 % 128)
        , finalizing := getByte window 3 / 128 % 2 == 1 }

/-- `iccom_package_add_packet`: wrap as much of `packet_payload` as fits
into a packet appended to the package payload area; returns the number of
consumer payload bytes written and the updated package. -/
def iccom_package_add_packet (package : iccom_package)
    (packet_payload : List Nat) (channel : Nat) : Nat × iccom_package :=
  let package_free_space_bytes :=
    (__iccom_package_get_payload_free_space package).1
  if package_free_space_bytes ≤ ICCOM_PACKET_HEADER_SIZE_BYTES then
    (0, package)
  else
    let payload_write_size_bytes :=
      min (package_free_space_bytes - ICCOM_PACKET_HEADER_SIZE_BYTES)
        packet_payload.length
    let start := __iccom_package_free_space_start_offset package
    let bytes :=
      iccom_packet_write_header payload_write_size_bytes channel
          (payload_write_size_bytes == packet_payload.length)
        ++ packet_payload.take payload_write_size_bytes
    let new_length := (__iccom_package_payload_size package).1
      + (ICCOM_PACKET_HEADER_SIZE_BYTES + payload_write_size_bytes)
    (payload_write_size_bytes
     , __iccom_package_set_payload_size ⟨writeBytes package.data start bytes⟩
         new_length)

/-! ## RX message storage

Channel-indexed storage of messages under construction and finalized
messages, with commit/rollback of per-package deltas.  The consumer
callback registry (function pointers) plays no role in the embedded
operations and is omitted. -/

/-- `struct iccom_message`.  As in the source, `length` is tracked
separately from the byte buffer (rollback decrements `length` without
shrinking the buffer). -/
structure iccom_message where
  data : List Nat
  length : Nat
  channel : Nat
  id : Nat
  priority : Nat
  finalized : Bool
  uncommitted_length : Nat
  deriving Repr, DecidableEq

/-- `__iccom_message_init` (plus the caller-side channel assignment within
`__iccom_construct_message_in_storage`): an all-zero message struct. -/
def __iccom_message_init (channel : Nat) : iccom_message :=
  { data := [], length := 0, channel := channel, id := 0, priority := 0
    , finalized := false, uncommitted_length := 0 }

/-- `__iccom_message_is_ready`: finalized and fully committed. -/
def __iccom_message_is_ready (msg : iccom_message) : Bool :=
  msg.finalized && msg.uncommitted_length == 0

/-- `struct iccom_message_storage_channel` (callback slots omitted). -/
structure iccom_message_storage_channel where
  channel : Nat
  messages : List iccom_message
  current_last_message_id : Nat
  deriving Repr, DecidableEq

/-- `struct iccom_message_storage` (global callback slots omitted). -/
structure iccom_message_storage where
  channels_list : List iccom_message_storage_channel
  uncommitted_finalized_count : Nat
  deriving Repr, DecidableEq

/-- Replace the first list entry satisfying `p` by its `f`-image (models a
C find-then-mutate-through-pointer sequence). -/
def updateFirst (p : α → Bool) (f : α → α) : List α → List α
  | [] => []
  | a :: rest => if p a then f a :: rest else a :: updateFirst p f rest

/-- `__iccom_msg_storage_find_channel`. -/
def __iccom_msg_storage_find_channel (storage : iccom_message_storage)
    (channel : Nat) : Option iccom_message_storage_channel :=
  storage.channels_list.find? (fun c => c.channel == channel)

/-- `__iccom_msg_storage_find_message_in_channel`. -/
def __iccom_msg_storage_find_message_in_channel
    (channel_rec : Option iccom_message_storage_channel) (msg_id : Nat) :
    Option iccom_message :=
  match channel_rec with
  | none => none
  | some c => c.messages.find? (fun m => m.id == msg_id)

/-- `__iccom_msg_storage_add_channel`: appends a fresh channel record if the
channel is absent (allocation failure not modelled). -/
def __iccom_msg_storage_add_channel (storage : iccom_message_storage)
    (channel : Nat) : iccom_message_storage :=
  match __iccom_msg_storage_find_channel storage channel with
  | some _ => storage
  | none =>
      { storage with channels_list := storage.channels_list ++
          [{ channel := channel, messages := []
             , current_last_message_id := ICCOM_PACKET_INVALID_MESSAGE_ID }] }

/-- Apply `f` to the record of `channel` (a C mutation through the found
channel pointer). -/
def __iccom_msg_storage_update_channel (storage : iccom_message_storage)
    (channel : Nat)
    (f : iccom_message_storage_channel → iccom_message_storage_channel) :
    iccom_message_storage :=
  { storage with channels_list :=
      updateFirst (fun c => c.channel == channel) f storage.channels_list }

/-- `__iccom_msg_storage_allocate_next_msg_id`: per-channel message id
allocator (`unsigned int`, wraps skipping 0); also records the allocated id
in `current_last_message_id`. -/
def __iccom_msg_storage_allocate_next_msg_id
    (storage : iccom_message_storage) (channel : Nat) :
    Nat × iccom_message_storage :=
  match __iccom_msg_storage_find_channel storage channel with
  | none => (ICCOM_PACKET_INITIAL_MESSAGE_ID, storage)
  | some channel_rec =>
      if channel_rec.messages.isEmpty then
        (ICCOM_PACKET_INITIAL_MESSAGE_ID
         , __iccom_msg_storage_update_channel storage channel
             (fun c => { c with current_last_message_id :=
                           ICCOM_PACKET_INITIAL_MESSAGE_ID }))
      else
        let next_id0 := (channel_rec.current_last_message_id + 1) % 2 ^ 32
        let next_id := if next_id0 = 0 then ICCOM_PACKET_INITIAL_MESSAGE_ID
                       else next_id0
        (next_id
         , __iccom_msg_storage_update_channel storage channel
             (fun c => { c with current_last_message_id := next_id }))

/-- Apply `f` to the last message of `channel`'s list (a C mutation through
the tail message pointer). -/
def updateLast (f : α → α) : List α → List α
  | [] => []
  | [a] => [f a]
  | a :: rest => a :: updateLast f rest

/-- `iccom_msg_storage_push_message`: add the message at the channel tail
and assign it the next per-channel id; returns the updated storage and the
assigned id (the source writes it through `msg->id`). -/
def iccom_msg_storage_push_message (storage : iccom_message_storage)
    (msg : iccom_message) : Except Int (iccom_message_storage × Nat) :=
  let storage := __iccom_msg_storage_add_channel storage msg.channel
  match __iccom_msg_storage_find_channel storage msg.channel with
  | none => .error (-ENOMEM)
  | some channel_rec =>
      if (__iccom_msg_storage_find_message_in_channel (some channel_rec)
            msg.id).isSome then
        .error (-EALREADY)
      else
        let storage := __iccom_msg_storage_update_channel storage msg.channel
          (fun c => { c with messages := c.messages ++ [msg] })
        let (next_id, storage) :=
          __iccom_msg_storage_allocate_next_msg_id storage msg.channel
        let storage := __iccom_msg_storage_update_channel storage msg.channel
          (fun c => { c with messages :=
                        (updateLast (fun m => { m with id := next_id })
                          c.messages) })
        .ok (storage, next_id)

/-- `iccom_msg_storage_get_last_unfinalized_message`. -/
def iccom_msg_storage_get_last_unfinalized_message
    (storage : iccom_message_storage) (channel : Nat) :
    Option iccom_message :=
  match __iccom_msg_storage_find_channel storage channel with
  | none => none
  | some channel_rec =>
      match channel_rec.messages.getLast? with
      | none => none
      | some msg => if msg.finalized then none else some msg

/-- `__iccom_msg_storage_get_message`. -/
def __iccom_msg_storage_get_message (storage : iccom_message_storage)
    (channel : Nat) (msg_id : Nat) : Option iccom_message :=
  __iccom_msg_storage_find_message_in_channel
    (__iccom_msg_storage_find_channel storage channel) msg_id

/-- The per-message body of the `__iccom_msg_storage_channel_rollback` loop:
messages with no uncommitted delta are skipped; otherwise the uncommitted
tail is removed from `length`, `finalized` is cleared and the delta reset. -/
def __iccom_msg_rollback_one (msg : iccom_message) : iccom_message :=
  if msg.uncommitted_length = 0 then msg
  else { msg with finalized := false
                  , length := msg.length - msg.uncommitted_length
                  , uncommitted_length := 0 }

/-- `__iccom_msg_storage_channel_rollback`. -/
def __iccom_msg_storage_channel_rollback
    (channel_rec : iccom_message_storage_channel) :
    iccom_message_storage_channel :=
  { channel_rec with messages := channel_rec.messages.map __iccom_msg_rollback_one }

/-- The per-message body of the `__iccom_msg_storage_channel_commit` loop. -/
def __iccom_msg_commit_one (msg : iccom_message) : iccom_message :=
  if msg.uncommitted_length = 0 then msg
  else { msg with uncommitted_length := 0 }

/-- `__iccom_msg_storage_channel_commit`. -/
def __iccom_msg_storage_channel_commit
    (channel_rec : iccom_message_storage_channel) :
    iccom_message_storage_channel :=
  { channel_rec with messages := channel_rec.messages.map __iccom_msg_commit_one }

/-- `iccom_msg_storage_rollback`: rolls back every channel; the
`uncommitted_finalized_count` field is not touched. -/
def iccom_msg_storage_rollback (storage : iccom_message_storage) :
    iccom_message_storage :=
  { storage with channels_list :=
      storage.channels_list.map __iccom_msg_storage_channel_rollback }

/-- `iccom_msg_storage_commit`: commits every channel and resets
`uncommitted_finalized_count` to 0. -/
def iccom_msg_storage_commit (storage : iccom_message_storage) :
    iccom_message_storage :=
  { channels_list :=
      storage.channels_list.map __iccom_msg_storage_channel_commit
    , uncommitted_finalized_count := 0 }

/-- `iccom_msg_storage_uncommitted_finalized_count`. -/
def iccom_msg_storage_uncommitted_finalized_count
    (storage : iccom_message_storage) : Nat :=
  storage.uncommitted_finalized_count

/-- `iccom_msg_storage_append_data_to_message`: append `new_data` to the
message identified by `(channel, msg_id)`; errors if the message does not
exist (`-EBADF`) or is already finalized (`-EACCES`).  On success the data
is appended, `length` grows by the appended byte count, and
`uncommitted_length` is ASSIGNED the appended byte count (`=`, not `+=`,
exactly as the source does); a finalizing append sets `finalized` and
increments the storage's `uncommitted_finalized_count`. -/
def iccom_msg_storage_append_data_to_message
    (storage : iccom_message_storage) (channel : Nat) (msg_id : Nat)
    (new_data : List Nat) (final : Bool) :
    Except Int iccom_message_storage :=
  match __iccom_msg_storage_get_message storage channel msg_id with
  | none => .error (-EBADF)
  | some msg =>
      if msg.finalized then .error (-EACCES)
      else
        let storage := __iccom_msg_storage_update_channel storage channel
          (fun c => { c with messages :=
            (updateFirst (fun m => m.id == msg_id)
              (fun m =>
                let m := { m with data := m.data ++ new_data
                                  , length := m.length + new_data.length
                                  , uncommitted_length := new_data.length }
                if final then { m with finalized := true } else m)
              c.messages) })
        let storage :=
          if final then
            { storage with uncommitted_finalized_count :=
                storage.uncommitted_finalized_count + 1 }
          else storage
        .ok storage

/-! ## Engine state, TX package queue, frame state machine

The engine-private state (`struct iccom_dev_private`) restricted to the
fields the embedded operations read or write.  The frame size
`ICCOM_DATA_XFER_SIZE_BYTES` and ack size `ICCOM_ACK_XFER_SIZE_BYTES` are
build-time configuration outside the translation unit; they appear as
explicit parameters `data_xfer_size` / `ack_xfer_size`. -/

/-- The statistics counters touched by the embedded operations. -/
structure iccom_dev_statistics where
  transport_layer_xfers_done_count : Nat := 0
  raw_bytes_xfered_via_transport_layer : Nat := 0
  packages_xfered : Nat := 0
  packages_sent_ok : Nat := 0
  packages_received_ok : Nat := 0
  packages_bad_data_received : Nat := 0
  packages_duplicated_received : Nat := 0
  packages_parsing_failed : Nat := 0
  packages_in_tx_queue : Nat := 0
  packets_received_ok : Nat := 0
  messages_received_ok : Nat := 0
  messages_ready_in_storage : Nat := 0
  total_consumers_bytes_received_ok : Nat := 0
  deriving Repr, DecidableEq

/-- `struct iccom_dev` with its private part (transport interface pointers,
locks and workqueue handles omitted). -/
structure iccom_dev where
  tx_data_packages : List iccom_package
  next_tx_package_id : Int
  last_rx_package_id : Int
  rx_messages : iccom_message_storage
  data_xfer_stage : Bool
  closing : Bool
  statistics : iccom_dev_statistics
  deriving Repr, DecidableEq

/-- `__iccom_get_next_package_id`: returns the current counter value and
post-increments it.  The counter is a C `int`; the `<= 0` wrap guard is kept
(on the `Int` model it fires never, matching every overflow-free C
execution). -/
def __iccom_get_next_package_id (iccom : iccom_dev) : Int × iccom_dev :=
  let pkg_id := iccom.next_tx_package_id
  let next := iccom.next_tx_package_id + 1
  let next := if next ≤ 0 then ICCOM_INITIAL_PACKAGE_ID else next
  (pkg_id, { iccom with next_tx_package_id := next })

/-- `__iccom_have_packages`. -/
def __iccom_have_packages (iccom : iccom_dev) : Bool :=
  !iccom.tx_data_packages.isEmpty

/-- `__iccom_get_first_tx_package`. -/
def __iccom_get_first_tx_package (iccom : iccom_dev) : Option iccom_package :=
  iccom.tx_data_packages.head?

/-- `__iccom_get_last_tx_package`. -/
def __iccom_get_last_tx_package (iccom : iccom_dev) : Option iccom_package :=
  iccom.tx_data_packages.getLast?

/-- `__iccom_have_multiple_packages`. -/
def __iccom_have_multiple_packages (iccom : iccom_dev) : Bool :=
  2 ≤ iccom.tx_data_packages.length

/-- `__iccom_enqueue_new_tx_data_package`: finalize the former tail (if
any), then append a fresh unfinalized package carrying the next id. -/
def __iccom_enqueue_new_tx_data_package (data_xfer_size : Nat)
    (iccom : iccom_dev) : iccom_dev :=
  let iccom :=
    if __iccom_have_packages iccom then
      { iccom with tx_data_packages :=
          (updateLast __iccom_package_finalize iccom.tx_data_packages) }
    else iccom
  let new_package := __iccom_package_init data_xfer_size
  let (package_id, iccom) := __iccom_get_next_package_id iccom
  let new_package := __iccom_package_set_id new_package package_id
  { iccom with
      tx_data_packages := iccom.tx_data_packages ++ [new_package]
      , statistics := { iccom.statistics with packages_in_tx_queue :=
          iccom.statistics.packages_in_tx_queue + 1 } }

/-- `__iccom_enqueue_empty_tx_data_package`: enqueue a new package and make
it empty-finalized. -/
def __iccom_enqueue_empty_tx_data_package (data_xfer_size : Nat)
    (iccom : iccom_dev) : iccom_dev :=
  let iccom := __iccom_enqueue_new_tx_data_package data_xfer_size iccom
  { iccom with tx_data_packages :=
      (updateLast __iccom_package_make_empty iccom.tx_data_packages) }

/-- `__iccom_queue_step_forward`: with several queued packages, drop the
delivered head; with a single package, re-id it and make it empty again.
Returns whether data (beyond the placeholder) remains queued. -/
def __iccom_queue_step_forward (iccom : iccom_dev) : Bool × iccom_dev :=
  if __iccom_have_multiple_packages iccom then
    (true
     , { iccom with
          tx_data_packages := iccom.tx_data_packages.tail
          , statistics := { iccom.statistics with packages_in_tx_queue :=
              iccom.statistics.packages_in_tx_queue - 1 } })
  else
    match iccom.tx_data_packages with
    | [] => (false, iccom)  -- unreachable: the TX queue is never empty
    | delivered_package :: rest =>
        let (next_id, iccom) := __iccom_get_next_package_id iccom
        (false
         , { iccom with tx_data_packages :=
              (__iccom_package_make_empty
                (__iccom_package_set_id delivered_package next_id) :: rest) })

/-- The `while (length > bytes_written)` loop of
`__iccom_queue_append_message`, with the remaining message bytes in `data`.
`fuel` bounds the iteration count; `2 * data.length + 2` always suffices
for the frame sizes the driver is configured with (payload room larger than
a packet header), since every other iteration writes at least one byte. -/
def __iccom_queue_append_message_loop (data_xfer_size : Nat) (channel : Nat)
    (iccom : iccom_dev) (data : List Nat) : Nat → iccom_dev
  | 0 => iccom
  | fuel + 1 =>
    if data.isEmpty then iccom
    else
      match __iccom_get_last_tx_package iccom with
      | none => iccom  -- unreachable: the TX queue is never empty
      | some dst_package =>
          let (bytes_written, dst_package) :=
            iccom_package_add_packet dst_package data channel
          if bytes_written = 0 then
            -- the last package in the queue already has no space
            __iccom_queue_append_message_loop data_xfer_size channel
              (__iccom_enqueue_new_tx_data_package data_xfer_size iccom)
              data fuel
          else
            __iccom_queue_append_message_loop data_xfer_size channel
              { iccom with tx_data_packages :=
                  (updateLast (fun _ => dst_package) iccom.tx_data_packages) }
              (data.drop bytes_written) fuel

/-- `__iccom_queue_append_message`: fragment the message into packets
appended to the queue tail, adding packages as needed, and finalize the
tail. -/
def __iccom_queue_append_message (data_xfer_size : Nat) (iccom : iccom_dev)
    (data : List Nat) (channel : Nat) : iccom_dev :=
  let iccom :=
    if !__iccom_have_multiple_packages iccom then
      __iccom_enqueue_new_tx_data_package data_xfer_size iccom
    else iccom
  let iccom := __iccom_queue_append_message_loop data_xfer_size channel
    iccom data (2 * data.length + 2)
  { iccom with tx_data_packages :=
      (updateLast __iccom_package_finalize iccom.tx_data_packages) }

/-- `__iccom_initiate_data_xfer`: the returned code together with whether
the transport's `data_xchange` was invoked (a data xfer was triggered).
The transport-busy (`FULL_DUPLEX_ERROR_NOT_READY`) and started cases both
return 0 as in the source. -/
def __iccom_initiate_data_xfer (iccom : iccom_dev) : Int × Bool :=
  if !__iccom_have_packages iccom then (-ENODATA, false)
  else (0, true)

/-- `iccom_flush`: forwards to `__iccom_initiate_data_xfer`; the source
performs NO closing-flag check here. -/
def iccom_flush (iccom : iccom_dev) : Int × Bool :=
  let (res, initiated) := __iccom_initiate_data_xfer iccom
  if res < 0 then (res, initiated) else (0, initiated)

/-- `iccom_post_message`: argument checks (bad channel `-EBADSLT`, empty
data `-ENODATA`, closing `-EBADFD`), then queue append and xfer initiation.
Returns the code, whether a xfer was initiated, and the new state. -/
def iccom_post_message (data_xfer_size : Nat) (iccom : iccom_dev)
    (data : List Nat) (channel : Nat) : Int × Bool × iccom_dev :=
  if channel > ICCOM_PACKET_MAX_CHANNEL_ID then (-EBADSLT, false, iccom)
  else if data.isEmpty then (-ENODATA, false, iccom)
  else if iccom.closing then (-EBADFD, false, iccom)
  else
    let iccom := __iccom_queue_append_message data_xfer_size iccom data channel
    let (res, initiated) := __iccom_initiate_data_xfer iccom
    (res, initiated, iccom)

/-- `__iccom_read_next_packet`: parse one packet from the remaining payload
window and apply it to the RX storage.  Result mirrors the C `int` return
(`> 0` bytes consumed, `0` empty window, `< 0` error) together with the
updated storage, the consumer bytes count and the finalized flag outputs. -/
def __iccom_read_next_packet (storage : iccom_message_storage)
    (window : List Nat) : Int × iccom_message_storage × Nat × Bool :=
  if window.length = 0 then (0, storage, 0, false)
  else
    match __iccom_packet_parse_into_struct window with
    | none => (-EINVAL, storage, 0, false)
    | some packet =>
        let found :=
          iccom_msg_storage_get_last_unfinalized_message storage packet.channel
        let constructed :=
          match found with
          | some msg => some (msg, storage)
          | none =>
              -- __iccom_construct_message_in_storage
              match iccom_msg_storage_push_message storage
                      (__iccom_message_init packet.channel) with
              | .error _ => none
              | .ok (storage, next_id) =>
                  some ({ __iccom_message_init packet.channel with
                            id := next_id }, storage)
        match constructed with
        | none => (-ENOMEM, storage, 0, false)
        | some (msg, storage) =>
            match iccom_msg_storage_append_data_to_message storage
                    msg.channel msg.id packet.payload packet.finalizing with
            | .error e => (e, storage, 0, false)
            | .ok storage =>
                ((iccom_packet_packet_size_bytes packet.payload_length : Int)
                 , storage, packet.payload_length, packet.finalizing)

/-- The packet loop of `__iccom_process_package_payload`.  Accumulates the
packet count; the consumer-bytes output is overwritten per packet exactly
as the source's `*consumer_bytes_count__out = ...` assignment does.  Result
code `0` is success, `< 0` a parse failure (rollback is applied by the
caller).  `fuel` bounds the iterations; `window.length + 1` always
suffices since every successful packet consumes at least one byte. -/
def __iccom_process_package_payload_loop (storage : iccom_message_storage)
    (window : List Nat) (packets_done : Nat) (consumer_total : Nat) :
    Nat → Int × iccom_message_storage × Nat × Nat
  | 0 => (-EBADMSG, storage, packets_done, consumer_total)
  | fuel + 1 =>
    if window.length = 0 then (0, storage, packets_done, consumer_total)
    else
      let (bytes_read, storage, consumer, _finalized) :=
        __iccom_read_next_packet storage window
      if bytes_read ≤ 0 then (-EBADMSG, storage, packets_done, consumer_total)
      else
        __iccom_process_package_payload_loop storage
          (window.drop bytes_read.toNat) (packets_done + 1) consumer fuel

/-- `__iccom_process_package_payload`: parse and apply all packets of the
package payload; on any failure roll the RX storage back and report
`-EBADMSG`, otherwise read the finalized-since-last-commit count, commit,
and update the statistics (consumer delivery work scheduling when
`finalized > 0` happens outside the embedded state). -/
def __iccom_process_package_payload (iccom : iccom_dev)
    (window : List Nat) : Int × iccom_dev :=
  let (code, storage, packets_done, consumer_total) :=
    __iccom_process_package_payload_loop iccom.rx_messages window 0 0
      (window.length + 1)
  if code < 0 then
    (-EBADMSG, { iccom with rx_messages := iccom_msg_storage_rollback storage })
  else
    let finalized := iccom_msg_storage_uncommitted_finalized_count storage
    let storage := iccom_msg_storage_commit storage
    (0, { iccom with
            rx_messages := storage
            , statistics := { iccom.statistics with
                packets_received_ok :=
                  iccom.statistics.packets_received_ok + packets_done
                , messages_received_ok :=
                  iccom.statistics.messages_received_ok + finalized
                , total_consumers_bytes_received_ok :=
                  iccom.statistics.total_consumers_bytes_received_ok
                    + consumer_total
                , messages_ready_in_storage :=
                  iccom.statistics.messages_ready_in_storage + finalized } })

/-- The next xfer handed back to the transport by the done callback:
an error pointer (halt), an ack-xfer (`true` = ACK byte, `false` = NACK
byte) or a data package. -/
inductive iccom_next_xfer where
  | halt : Int → iccom_next_xfer
  | ack_xfer : Bool → iccom_next_xfer
  | data_xfer : iccom_package → iccom_next_xfer
  deriving Repr, DecidableEq

/-- `__iccom_xfer_done_callback`: the frame state machine transition on a
completed xfer, given the received frame `rx_pkg`.  Returns the new engine
state, the next xfer and the `start_immediately__out` flag. -/
def __iccom_xfer_done_callback (ack_xfer_size : Nat) (iccom : iccom_dev)
    (rx_pkg : iccom_package) : iccom_dev × iccom_next_xfer × Bool :=
  if iccom.closing then (iccom, .halt (-ENODATA), false)
  else
    let iccom := { iccom with statistics := { iccom.statistics with
        raw_bytes_xfered_via_transport_layer :=
          iccom.statistics.raw_bytes_xfered_via_transport_layer + rx_pkg.size
        , transport_layer_xfers_done_count :=
          iccom.statistics.transport_layer_xfers_done_count + 1 } }
    if iccom.data_xfer_stage then
      let iccom := { iccom with statistics := { iccom.statistics with
          packages_xfered := iccom.statistics.packages_xfered + 1 } }
      let payload_size := __iccom_verify_package_data rx_pkg
      let (iccom, answer) :=
        if payload_size < 0 then
          -- package level data is not selfconsistent
          ({ iccom with statistics := { iccom.statistics with
              packages_bad_data_received :=
                iccom.statistics.packages_bad_data_received + 1 } }
           , false)
        else if __iccom_package_get_id rx_pkg == iccom.last_rx_package_id then
          -- already received and processed: answer (already) OK
          ({ iccom with statistics := { iccom.statistics with
              packages_duplicated_received :=
                iccom.statistics.packages_duplicated_received + 1 } }
           , true)
        else
          let pkg_payload :=
            (rx_pkg.data.drop __iccom_package_payload_start_offset).take
              payload_size.toNat
          let (res, iccom) := __iccom_process_package_payload iccom pkg_payload
          if res ≠ 0 then
            ({ iccom with statistics := { iccom.statistics with
                packages_parsing_failed :=
                  iccom.statistics.packages_parsing_failed + 1 } }
             , false)
          else
            ({ iccom with
                statistics := { iccom.statistics with
                  packages_received_ok :=
                    iccom.statistics.packages_received_ok + 1 }
                , last_rx_package_id := __iccom_package_get_id rx_pkg }
             , true)
      ({ iccom with data_xfer_stage := !iccom.data_xfer_stage }
       , .ack_xfer answer, true)
    else
      -- ack stage: advance the queue if the other side acked our data
      let (iccom, start_immediately) :=
        if __iccom_verify_ack ack_xfer_size rx_pkg then
          let iccom := { iccom with statistics := { iccom.statistics with
              packages_sent_ok := iccom.statistics.packages_sent_ok + 1 } }
          let (have_data, iccom) := __iccom_queue_step_forward iccom
          (iccom, have_data)
        else
          (iccom, true)
      let next :=
        match __iccom_get_first_tx_package iccom with
        | some p => iccom_next_xfer.data_xfer p
        | none => iccom_next_xfer.halt (-ENODATA)  -- unreachable: queue never empty
      ({ iccom with data_xfer_stage := !iccom.data_xfer_stage }
       , next, start_immediately)

/-- The engine state directly after the initialization sequence of
`iccom_init` (messages storage and packages storage initialized, the
initial empty TX package enqueued, `data_xfer_stage` starting at data
stage, `closing` false).  The C code leaves `last_rx_package_id`
uninitialized; it is a parameter here. -/
def iccom_init_state (data_xfer_size : Nat) (last_rx : Int) : iccom_dev :=
  __iccom_enqueue_empty_tx_data_package data_xfer_size
    { tx_data_packages := []
      , next_tx_package_id := ICCOM_INITIAL_PACKAGE_ID
      , last_rx_package_id := last_rx
      , rx_messages := { channels_list := [], uncommitted_finalized_count := 0 }
      , data_xfer_stage := true
      , closing := false
      , statistics := {} }

/-! ## Concrete instances used by the theorems below -/

/-- The allocator state before any package was enqueued
(`__iccom_init_packages_storage` just ran). -/
def fresh_alloc_state : iccom_dev :=
  { tx_data_packages := []
    , next_tx_package_id := ICCOM_INITIAL_PACKAGE_ID
    , last_rx_package_id := 0
    , rx_messages := { channels_list := [], uncommitted_finalized_count := 0 }
    , data_xfer_stage := true
    , closing := false
    , statistics := {} }

/-- The ids handed out by the first `n` calls of
`__iccom_get_next_package_id` from state `st`. -/
def alloc_ids (st : iccom_dev) : Nat → List Int
  | 0 => []
  | n + 1 =>
      let (i, st') := __iccom_get_next_package_id st
      i :: alloc_ids st' n

/-- The id byte actually written on the wire for package id `i`
(`__iccom_package_set_id` into a 64-byte frame, read back). -/
def wire_id_byte (i : Int) : Int :=
  __iccom_package_get_id (__iccom_package_set_id (__iccom_package_init 64) i)

/-- An RX storage holding a single empty unfinalized message (channel 1,
id 1), as it exists right after the message was constructed for an
incoming packet. -/
def append_test_storage : iccom_message_storage :=
  { channels_list :=
      [{ channel := 1
         , messages := [{ __iccom_message_init 1 with id := 1 }]
         , current_last_message_id := 1 }]
    , uncommitted_finalized_count := 0 }

/-- Two consecutive successful 1-byte appends to the same message with no
commit in between (two packets of one message inside one package). -/
def append_twice_result : Except Int iccom_message_storage :=
  (iccom_msg_storage_append_data_to_message append_test_storage 1 1
      [0xAA] false).bind
    (fun s => iccom_msg_storage_append_data_to_message s 1 1 [0xBB] false)

/-- A freshly initialized engine with 64-byte data frames
(`last_rx_package_id` arbitrary, taken 0). -/
def init64 : iccom_dev := iccom_init_state 64 0

/-- The engine of `init64` with the closing flag set (an `iccom_close` in
progress). -/
def closing_test_state : iccom_dev := { init64 with closing := true }

/-- A valid received 64-byte package: id 42, payload a single packet
`{len 3, channel 5, complete}` with bytes `11 22 33` (spec scenario S1),
finalized (fill + CRC). -/
def rx_test_package : iccom_package :=
  __iccom_package_finalize
    (__iccom_package_set_id
      (__iccom_package_set_payload_size
        ⟨([0, 0, 0] ++ [0, 3, 0, 0x85, 0x11, 0x22, 0x33])
           ++ List.replicate 54 0⟩ 7)
      42)

/-- `init64` after posting the 100-byte message `0,…,99` on channel 1
(spec scenario S2). -/
def post100_state : iccom_dev :=
  (iccom_post_message 64 init64 (List.range 100) 1).2.2

/-- The single-byte positive-ACK frame (`ICCOM_PACKAGE_ACK_VALUE`). -/
def ack_frame : iccom_package := ⟨[0xD0]⟩

/-- An RX storage with one channel holding a message with an uncommitted
delta (3 of 5 bytes uncommitted, tentatively finalized) and one fully
committed finalized message. -/
def rollback_test_storage : iccom_message_storage :=
  { channels_list :=
      [{ channel := 7
         , messages :=
             [{ data := [1, 2, 3, 4, 5], length := 5, channel := 7, id := 1
                , priority := 0, finalized := true, uncommitted_length := 3 }
              , { data := [9], length := 1, channel := 7, id := 2
                  , priority := 0, finalized := true, uncommitted_length := 0 }]
         , current_last_message_id := 2 }]
    , uncommitted_finalized_count := 1 }

/-! ## TX queue invariant

The well-formedness and validity predicates of the TX package queue, and
the reachable queue states: every state produced from the initialized
engine by a sequence of the TX queue operations (append of a consumer
message, queue step-forward on a delivered package, enqueueing of a new
TX data package). -/

/-- A well-formed package frame: the buffer has the configured frame size,
the declared payload length fits the payload room (the `ok__out` flag of
`__iccom_package_payload_size` holds), and every buffer entry is a byte. -/
def pkg_wf (sz : Nat) (p : iccom_package) : Prop :=
  p.data.length = sz
  ∧ (__iccom_package_payload_size p).2 = true
  ∧ ∀ b ∈ p.data, b < 256

/-- The TX queue invariant: the queue is never empty, every queued package
is well-formed, and every package other than the tail is finalized and
passes `__iccom_verify_package_data` (validation result `Valid`, i.e.
non-negative). -/
def tx_queue_invariant (sz : Nat) (st : iccom_dev) : Prop :=
  st.tx_data_packages ≠ []
  ∧ (∀ p ∈ st.tx_data_packages, pkg_wf sz p)
  ∧ ∀ p ∈ st.tx_data_packages.dropLast, 0 ≤ __iccom_verify_package_data p

/-- The engine states reachable from initialization by TX queue
operations: posting message bytes (`__iccom_queue_append_message`),
stepping the queue forward on a delivered package
(`__iccom_queue_step_forward`), and enqueueing a fresh TX data package
(`__iccom_enqueue_new_tx_data_package`). -/
inductive tx_reach (sz : Nat) : iccom_dev → Prop
  | init (last_rx : Int) : tx_reach sz (iccom_init_state sz last_rx)
  | append (st : iccom_dev) (data : List Nat) (channel : Nat)
      (h : tx_reach sz st) (hb : ∀ b ∈ data, b < 256) :
      tx_reach sz (__iccom_queue_append_message sz st data channel)
  | step (st : iccom_dev) (h : tx_reach sz st) :
      tx_reach sz (__iccom_queue_step_forward st).2
  | enqueue (st : iccom_dev) (h : tx_reach sz st) :
      tx_reach sz (__iccom_enqueue_new_tx_data_package sz st)

end ICCom

namespace ICCom

/-! ## Theorems -/

/-- Dropping to the write offset exposes the written bytes. -/
theorem drop_writeBytes (l : List Nat) (off : Nat) (bs : List Nat)
    (hoff : off ≤ l.length) :
    (writeBytes l off bs).drop off = bs ++ l.drop (off + bs.length) := by
  simp only [writeBytes]
  rw [List.append_assoc]
  exact List.drop_left' (by simp; omega)

/-- Reading back exactly the bytes just written. -/
theorem extract_writeBytes (l : List Nat) (off : Nat) (bs : List Nat)
    (hoff : off ≤ l.length) :
    ((writeBytes l off bs).drop off).take bs.length = bs := by
  rw [drop_writeBytes l off bs hoff]
  exact List.take_left' rfl

/-- A left shift or-ed with a small value is their sum (disjoint bits). -/
theorem shiftLeft_lor_eq_add (a b k : Nat) (hb : b < 2 ^ k) :
    (a <<< k) ||| b = a * 2 ^ k + b := by
  rw [Nat.shiftLeft_eq, Nat.mul_comm]
  exact (Nat.mul_add_lt_is_or hb a).symm

/-- Splitting a channel into LUN/CID and recombining is the identity for
valid channel numbers. -/
theorem luncid_channel_roundtrip (channel : Nat)
    (h : channel ≤ ICCOM_PACKET_MAX_CHANNEL_ID) :
    iccom_packet_luncid_channel (iccom_packet_channel_lun channel)
        (iccom_packet_channel_sid channel) = channel := by
  unfold iccom_packet_luncid_channel iccom_packet_channel_lun
    iccom_packet_channel_sid
  rw [Nat.shiftRight_eq_div_pow]
  have hmax : ICCOM_PACKET_MAX_CHANNEL_ID = 0x7FFF := rfl
  rw [hmax] at h
  have h1 : channel / 2 ^ 7 % 256 = channel / 128 := by
    have : channel / 2 ^ 7 = channel / 128 := by norm_num
    rw [this]
    exact Nat.mod_eq_of_lt (by omega)
  rw [h1]
  rw [shiftLeft_lor_eq_add _ _ 7 (by omega : channel % 128 % 128 < 2 ^ 7)]
  have : (2 : Nat) ^ 7 = 128 := by norm_num
  rw [this]
  omega

/-- `__iccom_package_payload_size` characterized: the ok flag holds iff the
declared length fits the payload room, and then the returned size is the
declared length. -/
theorem payload_size_spec (p : iccom_package) :
    ((__iccom_package_payload_size p).2 = true
      ↔ read2BE p.data 0 ≤ __iccom_package_payload_room_size p)
    ∧ ((__iccom_package_payload_size p).2 = true →
        (__iccom_package_payload_size p).1 = read2BE p.data 0) := by
  unfold __iccom_package_payload_size
  by_cases h : read2BE p.data 0 ≤ __iccom_package_payload_room_size p <;>
    simp [h]

/-- Parsing a freshly written packet header followed by its payload
recovers the payload size, channel and complete flag. -/
theorem parse_write_header (w channel : Nat) (payload : List Nat)
    (complete : Bool) (hw : payload.length = w) (hwlt : w < 65536)
    (hch : channel ≤ ICCOM_PACKET_MAX_CHANNEL_ID) (hw1 : 1 ≤ w) :
    __iccom_packet_parse_into_struct
        (iccom_packet_write_header w channel complete ++ payload)
      = some { payload := payload, payload_length := w, channel := channel
               , finalizing := complete } := by
  unfold __iccom_packet_parse_into_struct iccom_packet_write_header
  have hlen : ([w % 65536 / 256, w % 256, iccom_packet_channel_lun channel
      , iccom_packet_channel_sid channel + (if complete then 128 else 0)]
        ++ payload).length = 4 + w := by
    simp [hw]
    omega
  have hread : read2BE ([w % 65536 / 256, w % 256
      , iccom_packet_channel_lun channel
      , iccom_packet_channel_sid channel + (if complete then 128 else 0)]
        ++ payload) 0 = w := by
    simp [read2BE, getByte, List.getD_cons_zero, List.getD_cons_succ]
    omega
  rw [hlen, hread]
  have hmin : ¬ (4 + w < iccom_packet_min_packet_size_bytes) := by
    simp [iccom_packet_min_packet_size_bytes, iccom_packet_packet_size_bytes
      , ICCOM_PACKET_HEADER_SIZE_BYTES]
    omega
  have hfit : ¬ (iccom_packet_packet_size_bytes w > 4 + w) := by
    simp [iccom_packet_packet_size_bytes, ICCOM_PACKET_HEADER_SIZE_BYTES]
  rw [if_neg hmin, if_neg hfit]
  have hdrop : (([w % 65536 / 256, w % 256, iccom_packet_channel_lun channel
      , iccom_packet_channel_sid channel + (if complete then 128 else 0)]
        ++ payload).drop ICCOM_PACKET_HEADER_SIZE_BYTES) = payload := by
    simp [ICCOM_PACKET_HEADER_SIZE_BYTES]
  have hb2 : getByte ([w % 65536 / 256, w % 256
      , iccom_packet_channel_lun channel
      , iccom_packet_channel_sid channel + (if complete then 128 else 0)]
        ++ payload) 2 = iccom_packet_channel_lun channel := by
    simp [getByte]
  have hb3 : getByte ([w % 65536 / 256, w % 256
      , iccom_packet_channel_lun channel
      , iccom_packet_channel_sid channel + (if complete then 128 else 0)]
        ++ payload) 3
      = iccom_packet_channel_sid channel + (if complete then 128 else 0) := by
    simp [getByte]
  rw [hdrop, hb2, hb3]
  have hsid : iccom_packet_channel_sid channel < 128 := by
    unfold iccom_packet_channel_sid; omega
  have hmod : (iccom_packet_channel_sid channel
      + (if complete then 128 else 0)) % 128
        = iccom_packet_channel_sid channel := by
    rcases complete <;> simp <;> omega
  have hfin : (iccom_packet_channel_sid channel
      + (if complete then 128 else 0)) / 128 % 2
        = if complete then 1 else 0 := by
    rcases complete <;> simp <;> omega
  rw [hmod, hfin, luncid_channel_roundtrip channel hch]
  rcases complete <;> simp [hw]

/-- Bytes written strictly before position `k` do not affect the suffix
from `k` on. -/
theorem drop_writeBytes_of_le (l : List Nat) (off : Nat) (bs : List Nat)
    (k : Nat) (h : off + bs.length ≤ k) (h2 : off + bs.length ≤ l.length) :
    (writeBytes l off bs).drop k = l.drop k := by
  simp only [writeBytes]
  rw [show k = (l.take off ++ bs).length + (k - off - bs.length) by
        simp; omega]
  rw [List.drop_append, List.drop_drop]
  congr 1
  simp
  omega

/-- Every byte read out of a byte-valued buffer is below 256 (out-of-range
reads give the default 0). -/
theorem getByte_lt_of_mem (l : List Nat) (hb : ∀ b ∈ l, b < 256) (i : Nat) :
    getByte l i < 256 := by
  unfold getByte
  by_cases hi : i < l.length
  · rw [List.getD_eq_getElem _ _ hi]
    exact hb _ (List.getElem_mem hi)
  · rw [List.getD_eq_default _ _ (by omega)]
    omega

/-- The word-wise loop of the fill check accepts exactly when every byte of
the checked region is `0xFF`, for byte-valued buffers. -/
theorem check_words_iff (l : List Nat) (start cnt : Nat)
    (hb : ∀ i, getByte l i < 256) :
    __iccom_check_words l 0xFFFFFFFF start cnt = true
      ↔ ∀ j < 4 * cnt, getByte l (start + j) = 0xFF := by
  induction cnt generalizing start with
  | zero => simp [__iccom_check_words]
  | succ n ih =>
      show ((read4LE l start == 0xFFFFFFFF)
        && __iccom_check_words l 0xFFFFFFFF (start + 4) n) = true ↔ _
      rw [Bool.and_eq_true, beq_iff_eq, ih (start + 4)]
      have hb0 := hb start
      have hb1 := hb (start + 1)
      have hb2 := hb (start + 2)
      have hb3 := hb (start + 3)
      constructor
      · rintro ⟨h4, hrest⟩ j hj
        unfold read4LE at h4
        by_cases hj4 : j < 4
        · have hcases : j = 0 ∨ j = 1 ∨ j = 2 ∨ j = 3 := by omega
          rcases hcases with rfl | rfl | rfl | rfl
          all_goals try simp only [Nat.add_zero]
          all_goals omega
        · have h := hrest (j - 4) (by omega)
          rw [show start + 4 + (j - 4) = start + j by omega] at h
          exact h
      · intro hall
        constructor
        · unfold read4LE
          have h0 := hall 0 (by omega)
          have h1 := hall 1 (by omega)
          have h2 := hall 2 (by omega)
          have h3 := hall 3 (by omega)
          simp only [Nat.add_zero] at h0
          omega
        · intro j hj
          have h := hall (4 + j) (by omega)
          rw [show start + (4 + j) = start + 4 + j by omega] at h
          exact h

/-- The byte-wise remainder loop of the fill check accepts exactly when
every byte of its region equals the symbol. -/
theorem check_bytes_iff (l : List Nat) (symbol start cnt : Nat) :
    __iccom_check_bytes l symbol start cnt = true
      ↔ ∀ j < cnt, getByte l (start + j) = symbol := by
  induction cnt generalizing start with
  | zero => simp [__iccom_check_bytes]
  | succ n ih =>
      show ((getByte l start == symbol)
        && __iccom_check_bytes l symbol (start + 1) n) = true ↔ _
      rw [Bool.and_eq_true, beq_iff_eq, ih (start + 1)]
      constructor
      · rintro ⟨h0, hrest⟩ j hj
        by_cases hj0 : j = 0
        · subst hj0; simpa using h0
        · have h := hrest (j - 1) (by omega)
          rw [show start + 1 + (j - 1) = start + j by omega] at h
          exact h
      · intro hall
        refine ⟨by simpa using hall 0 (by omega), fun j hj => ?_⟩
        have h := hall (1 + j) (by omega)
        rw [show start + (1 + j) = start + 1 + j by omega] at h
        exact h

/-- `__iccom_package_check_unused_payload` with fill symbol `0xFF` accepts
exactly when the declared payload length fits AND every byte of the free
payload area is `0xFF`, for byte-valued frames. -/
theorem check_unused_payload_iff (p : iccom_package)
    (hb : ∀ i, getByte p.data i < 256) :
    __iccom_package_check_unused_payload p ICCOM_PACKAGE_EMPTY_PAYLOAD_VALUE
        = true
      ↔ ((__iccom_package_payload_size p).2 = true
         ∧ ∀ j < (__iccom_package_get_payload_free_space p).1,
             getByte p.data (__iccom_package_free_space_start_offset p + j)
               = 0xFF) := by
  unfold __iccom_package_check_unused_payload
  rcases hgf : __iccom_package_get_payload_free_space p with ⟨free, ok⟩
  have hok2 : ok = (__iccom_package_payload_size p).2 :=
    (congrArg Prod.snd hgf).symm
  simp only
  by_cases hok : (__iccom_package_payload_size p).2 = true
  · rw [show ok = true from hok2.trans hok]
    have hval : (ICCOM_PACKAGE_EMPTY_PAYLOAD_VALUE
        ||| (ICCOM_PACKAGE_EMPTY_PAYLOAD_VALUE <<< 8)
        ||| (ICCOM_PACKAGE_EMPTY_PAYLOAD_VALUE <<< 16)
        ||| (ICCOM_PACKAGE_EMPTY_PAYLOAD_VALUE <<< 24) : Nat)
          = 0xFFFFFFFF := by decide
    simp only [Bool.not_true, Bool.false_eq_true, if_false, hval]
    rw [Bool.and_eq_true]
    rw [check_words_iff p.data _ _ hb, check_bytes_iff]
    constructor
    · rintro ⟨hw, hbyte⟩
      refine ⟨hok, fun j hj => ?_⟩
      by_cases hjw : j < 4 * (free / 4)
      · exact hw j hjw
      · have h := hbyte (j - 4 * (free / 4)) (by omega)
        rw [show __iccom_package_free_space_start_offset p + 4 * (free / 4)
              + (j - 4 * (free / 4))
            = __iccom_package_free_space_start_offset p + j by omega] at h
        exact h
    · rintro ⟨-, hall⟩
      constructor
      · intro j hj
        exact hall j (by omega)
      · intro j hj
        have h := hall (4 * (free / 4) + j) (by omega)
        rw [show __iccom_package_free_space_start_offset p
              + (4 * (free / 4) + j)
            = __iccom_package_free_space_start_offset p + 4 * (free / 4) + j
            by omega] at h
        exact h
  · rw [show ok = false from hok2.trans (eq_false_of_ne_true hok)]
    simp [hok]

/-- C7 — `__iccom_verify_package_data` reports Valid (a non-negative
result) iff the declared payload length is at most the frame capacity
(frame size minus the 7 overhead bytes), every byte after the declared
payload and before the 4-byte CRC trailer is `0xFF`, and the stored
little-endian CRC equals the CRC recomputed over all prior bytes; and then
the reported value is the declared payload length.  The validation chain
is embedded as a pure function of the frame — it only reads, mirroring the
source, so the frame is not mutated. -/
theorem verify_package_data_iff (p : iccom_package)
    (hsz : 7 ≤ p.data.length) (hb : ∀ b ∈ p.data, b < 256) :
    (0 ≤ __iccom_verify_package_data p
      ↔ read2BE p.data 0 ≤ p.data.length - 7
        ∧ (∀ i, 3 + read2BE p.data 0 ≤ i → i < p.data.length - 4 →
            getByte p.data i = 0xFF)
        ∧ __iccom_package_get_src p = __iccom_package_compute_src p)
    ∧ (0 ≤ __iccom_verify_package_data p →
        __iccom_verify_package_data p = (read2BE p.data 0 : Int)) := by
  have hb' := getByte_lt_of_mem p.data hb
  obtain ⟨hps_iff, hps_val⟩ := payload_size_spec p
  have hroom : __iccom_package_payload_room_size p = p.data.length - 7 := by
    show p.data.length - 2 - 1 - 4 = p.data.length - 7
    omega
  have hfill_iff := check_unused_payload_iff p hb'
  unfold __iccom_verify_package_data
  rcases hps : __iccom_package_payload_size p with ⟨psize, ok⟩
  have hok_ps : (__iccom_package_payload_size p).2 = ok :=
    congrArg Prod.snd hps
  have hval_ps : (__iccom_package_payload_size p).1 = psize :=
    congrArg Prod.fst hps
  simp only
  by_cases hok : ok = true
  · -- declared length fits the room
    have hok' : (__iccom_package_payload_size p).2 = true := hok_ps.trans hok
    have hdle : read2BE p.data 0 ≤ p.data.length - 7 :=
      hroom ▸ hps_iff.mp hok'
    have hd : psize = read2BE p.data 0 := hval_ps.symm.trans (hps_val hok')
    have hfree_val : (__iccom_package_get_payload_free_space p).1
        = p.data.length - 7 - read2BE p.data 0 := by
      unfold __iccom_package_get_payload_free_space
      rw [hps]
      simp only
      rw [hroom, hd]
    have hstart : __iccom_package_free_space_start_offset p
        = 3 + read2BE p.data 0 := by
      show p.data.length - 4 - (__iccom_package_get_payload_free_space p).1
          = 3 + read2BE p.data 0
      rw [hfree_val]
      omega
    have hregion : (∀ j < (__iccom_package_get_payload_free_space p).1,
          getByte p.data (__iccom_package_free_space_start_offset p + j)
            = 0xFF)
        ↔ (∀ i, 3 + read2BE p.data 0 ≤ i → i < p.data.length - 4 →
            getByte p.data i = 0xFF) := by
      rw [hstart, hfree_val]
      constructor
      · intro h i h1 h2
        have hh := h (i - (3 + read2BE p.data 0)) (by omega)
        rw [show 3 + read2BE p.data 0 + (i - (3 + read2BE p.data 0)) = i
              by omega] at hh
        exact hh
      · intro h j hj
        exact h _ (by omega) (by omega)
    rw [hok]
    simp only [Bool.not_true, Bool.false_eq_true, if_false]
    by_cases hcu : __iccom_package_check_unused_payload p
        ICCOM_PACKAGE_EMPTY_PAYLOAD_VALUE = true
    · simp only [hcu, Bool.not_true, Bool.false_eq_true, if_false]
      have hfill := (hfill_iff.mp hcu).2
      by_cases hcrc : __iccom_verify_package_crc p = true
      · simp only [hcrc, Bool.not_true, Bool.false_eq_true, if_false]
        have hcrc' : __iccom_package_get_src p
            = __iccom_package_compute_src p := by
          have := hcrc
          unfold __iccom_verify_package_crc at this
          exact beq_iff_eq.mp this
        constructor
        · constructor
          · intro _
            exact ⟨hdle, hregion.mp hfill, hcrc'⟩
          · intro _
            omega
        · intro _
          rw [hd]
      · simp only [hcrc, Bool.not_false, if_true]
        have hcrc' : ¬ __iccom_package_get_src p
            = __iccom_package_compute_src p := by
          intro he
          exact hcrc (by unfold __iccom_verify_package_crc
                         exact beq_iff_eq.mpr he)
        constructor
        · constructor
          · intro hc
            omega
          · rintro ⟨-, -, hc⟩
            exact absurd hc hcrc'
        · intro hc
          omega
    · simp only [hcu, Bool.not_false, if_true]
      have hnofill : ¬ (∀ i, 3 + read2BE p.data 0 ≤ i →
          i < p.data.length - 4 → getByte p.data i = 0xFF) := by
        intro hall
        exact hcu (hfill_iff.mpr ⟨hok', hregion.mpr hall⟩)
      constructor
      · constructor
        · intro hc
          omega
        · rintro ⟨-, hfillr, -⟩
          exact absurd hfillr hnofill
      · intro hc
        omega
  · -- the declared length exceeds the room
    have hokf : ok = false := eq_false_of_ne_true hok
    have hgt : ¬ read2BE p.data 0 ≤ p.data.length - 7 := by
      rw [← hroom]
      intro hle
      exact hok (hok_ps.symm.trans (hps_iff.mpr hle))
    rw [hokf]
    simp only [Bool.not_false, if_true]
    constructor
    · constructor
      · intro hc
        omega
      · rintro ⟨hfit, -, -⟩
        exact absurd hfit hgt
    · intro hc
      omega

set_option maxRecDepth 100000 in
/-- Witness for the C7 theorem on the concrete valid frame
`rx_test_package`. -/
theorem verify_package_data_iff_witness :
    (0 ≤ __iccom_verify_package_data rx_test_package
      ↔ read2BE rx_test_package.data 0 ≤ rx_test_package.data.length - 7
        ∧ (∀ i, 3 + read2BE rx_test_package.data 0 ≤ i →
            i < rx_test_package.data.length - 4 →
            getByte rx_test_package.data i = 0xFF)
        ∧ __iccom_package_get_src rx_test_package
            = __iccom_package_compute_src rx_test_package)
    ∧ (0 ≤ __iccom_verify_package_data rx_test_package →
        __iccom_verify_package_data rx_test_package
          = (read2BE rx_test_package.data 0 : Int)) :=
  verify_package_data_iff rx_test_package (by decide) (by decide)

set_option maxRecDepth 40000 in
/-- C1 — The spec claims outbound package ids wrap `0xFF → 0x01`, never 0
on the wire.  The allocator `__iccom_get_next_package_id` increments a C
`int` and only resets it when it becomes non-positive, while
`__iccom_package_set_id` truncates the id to its low byte: the 256
allocations after init produce wire id bytes `1, …, 255, 0` — the 256th
outbound package carries id byte 0 on the wire. -/
theorem package_wire_id_reaches_zero :
    (∀ i ∈ alloc_ids fresh_alloc_state 255, wire_id_byte i ≠ 0)
    ∧ (alloc_ids fresh_alloc_state 255).getLast? = some 255
    ∧ wire_id_byte 255 = 0xFF
    ∧ (alloc_ids fresh_alloc_state 256).getLast? = some 256
    ∧ wire_id_byte 256 = 0 := by
  refine ⟨by decide, by decide, by decide, by decide, by decide⟩

/-- C2 — `iccom_msg_storage_append_data_to_message` ASSIGNS
`uncommitted_length = n` instead of accumulating `+= n`: two consecutive
successful uncommitted appends of 1 byte each leave the message with
`length = 2` but `uncommitted_length = 1` (the spec's `+=` semantics would
leave 2), so a rollback after the second append would only undo the second
packet's byte. -/
theorem append_data_overwrites_uncommitted_length :
    append_twice_result = .ok
      { channels_list :=
          [{ channel := 1
             , messages :=
                 [{ data := [0xAA, 0xBB], length := 2, channel := 1, id := 1
                    , priority := 0, finalized := false
                    , uncommitted_length := 1 }]
             , current_last_message_id := 1 }]
        , uncommitted_finalized_count := 0 } := by
  rfl

/-- C3 — The spec claims `iccom_flush` fails with the Closing error when
the engine is closing, like every other public API call.  The source's
`iccom_flush` performs no `ICCOM_CHECK_CLOSING` check: on a closing engine
it returns 0 and still invokes the transport's `data_xchange` (initiates
the xfer), whereas e.g. `iccom_post_message` on the same state returns
`-EBADFD`. -/
theorem iccom_flush_ignores_closing_flag :
    closing_test_state.closing = true
    ∧ iccom_flush closing_test_state = (0, true)
    ∧ (iccom_post_message 64 closing_test_state [0x11] 5).1 = -EBADFD := by
  refine ⟨rfl, by decide, by decide⟩

/-- C4 (counterexample) — a 5-byte window whose declared packet payload
length is 0 parses successfully into a packet with `payload_length = 0`:
the 5-byte minimum constrains the remaining window, not the declared
payload length. -/
theorem parse_zero_payload_counterexample :
    __iccom_packet_parse_into_struct [0, 0, 0, 0, 0]
      = some { payload := [], payload_length := 0, channel := 0
               , finalizing := false } := by
  rfl

/-- C4 (amended) — `__iccom_packet_parse_into_struct` succeeds iff the
window is at least the 5-byte minimum packet size AND the declared packet
(4-byte header plus declared payload) fits in the window; on success the
parsed `payload_length` equals the declared length, which may be 0. -/
theorem parse_succeeds_iff_window_bounds (window : List Nat) :
    ((__iccom_packet_parse_into_struct window).isSome
      ↔ iccom_packet_min_packet_size_bytes ≤ window.length
        ∧ iccom_packet_packet_size_bytes (read2BE window 0) ≤ window.length)
    ∧ (∀ pkt, __iccom_packet_parse_into_struct window = some pkt →
        pkt.payload_length = read2BE window 0) := by
  constructor
  · unfold __iccom_packet_parse_into_struct
    by_cases h1 : window.length < iccom_packet_min_packet_size_bytes
    · simp only [h1, if_true, Option.isSome_none, Bool.false_eq_true, false_iff,
        not_and]
      intro h5
      omega
    · simp only [h1, if_false]
      by_cases h2 : iccom_packet_packet_size_bytes (read2BE window 0) > window.length
      · simp only [h2, if_true, Option.isSome_none, Bool.false_eq_true, false_iff,
          not_and]
        intro h5
        omega
      · simp only [h2, if_false, Option.isSome_some, true_iff]
        exact ⟨by omega, by omega⟩
  · intro pkt hpkt
    unfold __iccom_packet_parse_into_struct at hpkt
    by_cases h1 : window.length < iccom_packet_min_packet_size_bytes
    · simp [h1] at hpkt
    · simp only [h1, if_false] at hpkt
      by_cases h2 : iccom_packet_packet_size_bytes (read2BE window 0) > window.length
      · simp [h2] at hpkt
      · simp only [h2, if_false, Option.some.injEq] at hpkt
        subst hpkt
        rfl

/-- Witness for the amended C4 theorem at the concrete zero-length-payload
window `[0,0,0,0,0]`. -/
theorem parse_succeeds_iff_window_bounds_witness :
    ({ payload := [], payload_length := 0, channel := 0, finalizing := false }
        : iccom_packet).payload_length = read2BE [0, 0, 0, 0, 0] 0 :=
  (parse_succeeds_iff_window_bounds [0, 0, 0, 0, 0]).2
    { payload := [], payload_length := 0, channel := 0, finalizing := false }
    (by rfl)

/-- C5 — After `iccom_msg_storage_rollback`: every stored message has
`uncommitted_length = 0`; rollback acts per message by
`__iccom_msg_rollback_one`, which decreases `length` by exactly the old
`uncommitted_length` and clears `finalized` when the delta was positive,
and leaves messages without uncommitted delta completely unchanged.  The
hypothesis `uncommitted_length ≤ length` holds for every reachable message
(appends grow both fields together). -/
theorem rollback_semantics (s : iccom_message_storage)
    (h : ∀ ch ∈ s.channels_list, ∀ m ∈ ch.messages,
          m.uncommitted_length ≤ m.length) :
    (∀ ch ∈ (iccom_msg_storage_rollback s).channels_list, ∀ m ∈ ch.messages,
        m.uncommitted_length = 0)
    ∧ (∀ ch ∈ s.channels_list, ∀ m ∈ ch.messages,
        (0 < m.uncommitted_length →
            (__iccom_msg_rollback_one m).length + m.uncommitted_length
                = m.length
            ∧ (__iccom_msg_rollback_one m).finalized = false
            ∧ (__iccom_msg_rollback_one m).uncommitted_length = 0)
        ∧ (m.uncommitted_length = 0 → __iccom_msg_rollback_one m = m))
    ∧ (iccom_msg_storage_rollback s).channels_list
        = s.channels_list.map (fun ch =>
            { ch with messages :=
                (ch.messages.map __iccom_msg_rollback_one) }) := by
  refine ⟨?_, ?_, rfl⟩
  · intro ch hch m hm
    simp only [iccom_msg_storage_rollback, List.mem_map] at hch
    obtain ⟨ch0, _, rfl⟩ := hch
    simp only [__iccom_msg_storage_channel_rollback, List.mem_map] at hm
    obtain ⟨m0, _, rfl⟩ := hm
    unfold __iccom_msg_rollback_one
    by_cases h0 : m0.uncommitted_length = 0 <;> simp [h0]
  · intro ch hch m hm
    have hle := h ch hch m hm
    constructor
    · intro hpos
      unfold __iccom_msg_rollback_one
      have h0 : ¬ m.uncommitted_length = 0 := by omega
      rw [if_neg h0]
      refine ⟨?_, rfl, rfl⟩
      show m.length - m.uncommitted_length + m.uncommitted_length = m.length
      omega
    · intro h0
      unfold __iccom_msg_rollback_one
      simp [h0]

/-- Witness for the C5 theorem on a concrete storage with one uncommitted
(tentatively finalized) and one committed message. -/
theorem rollback_semantics_witness :
    (∀ ch ∈ (iccom_msg_storage_rollback rollback_test_storage).channels_list,
        ∀ m ∈ ch.messages, m.uncommitted_length = 0)
    ∧ (∀ ch ∈ rollback_test_storage.channels_list, ∀ m ∈ ch.messages,
        (0 < m.uncommitted_length →
            (__iccom_msg_rollback_one m).length + m.uncommitted_length
                = m.length
            ∧ (__iccom_msg_rollback_one m).finalized = false
            ∧ (__iccom_msg_rollback_one m).uncommitted_length = 0)
        ∧ (m.uncommitted_length = 0 → __iccom_msg_rollback_one m = m))
    ∧ (iccom_msg_storage_rollback rollback_test_storage).channels_list
        = rollback_test_storage.channels_list.map (fun ch =>
            { ch with messages :=
                (ch.messages.map __iccom_msg_rollback_one) }) :=
  rollback_semantics rollback_test_storage (by decide)

/-- C10 — `iccom_msg_storage_rollback` leaves the storage's
`uncommitted_finalized_count` untouched while `iccom_msg_storage_commit`
resets it to 0; consequently a later successful package commit
(`__iccom_process_package_payload` on any state, here exercised with an
empty payload window) still reports the previously counted finalized
messages in its finalized-message statistics and only then clears the
counter. -/
theorem rollback_keeps_uncommitted_finalized_count
    (s : iccom_message_storage) (iccom : iccom_dev) :
    (iccom_msg_storage_rollback s).uncommitted_finalized_count
        = s.uncommitted_finalized_count
    ∧ (iccom_msg_storage_commit s).uncommitted_finalized_count = 0
    ∧ (__iccom_process_package_payload iccom []).1 = 0
    ∧ (__iccom_process_package_payload iccom []).2.statistics.messages_received_ok
        = iccom.statistics.messages_received_ok
          + iccom.rx_messages.uncommitted_finalized_count
    ∧ (__iccom_process_package_payload iccom
        []).2.rx_messages.uncommitted_finalized_count = 0 := by
  exact ⟨rfl, rfl, rfl, rfl, rfl⟩

/-- `__iccom_queue_step_forward` does not touch `last_rx_package_id`. -/
theorem queue_step_forward_keeps_last_rx (st : iccom_dev) :
    (__iccom_queue_step_forward st).2.last_rx_package_id
        = st.last_rx_package_id := by
  unfold __iccom_queue_step_forward
  by_cases hm : __iccom_have_multiple_packages st
  · simp [hm]
  · simp only [hm, Bool.false_eq_true, if_false]
    split <;> simp [__iccom_get_next_package_id]

/-- `__iccom_queue_step_forward` does not touch the RX message storage. -/
theorem queue_step_forward_keeps_rx_messages (st : iccom_dev) :
    (__iccom_queue_step_forward st).2.rx_messages = st.rx_messages := by
  unfold __iccom_queue_step_forward
  by_cases hm : __iccom_have_multiple_packages st
  · simp [hm]
  · simp only [hm, Bool.false_eq_true, if_false]
    split <;> simp [__iccom_get_next_package_id]

/-- `__iccom_queue_step_forward` does not touch `data_xfer_stage`. -/
theorem queue_step_forward_keeps_stage (st : iccom_dev) :
    (__iccom_queue_step_forward st).2.data_xfer_stage
        = st.data_xfer_stage := by
  unfold __iccom_queue_step_forward
  by_cases hm : __iccom_have_multiple_packages st
  · simp [hm]
  · simp only [hm, Bool.false_eq_true, if_false]
    split <;> simp [__iccom_get_next_package_id]

/-- `__iccom_queue_step_forward` does not touch the closing flag. -/
theorem queue_step_forward_keeps_closing (st : iccom_dev) :
    (__iccom_queue_step_forward st).2.closing = st.closing := by
  unfold __iccom_queue_step_forward
  by_cases hm : __iccom_have_multiple_packages st
  · simp [hm]
  · simp only [hm, Bool.false_eq_true, if_false]
    split <;> simp [__iccom_get_next_package_id]

/-- In the data stage, a valid received package whose id equals
`last_rx_package_id` takes the duplicate branch: positive ACK with
immediate start, `packages_duplicated_received` incremented, and the RX
message storage, `last_rx_package_id` and the parse statistics all
untouched (the payload is not parsed). -/
theorem xfer_done_duplicate_branch (a : Nat) (st : iccom_dev)
    (rx : iccom_package)
    (hstage : st.data_xfer_stage = true)
    (hclosing : st.closing = false)
    (hvalid : 0 ≤ __iccom_verify_package_data rx)
    (hdup : __iccom_package_get_id rx = st.last_rx_package_id) :
    (__iccom_xfer_done_callback a st rx).2.1 = .ack_xfer true
    ∧ (__iccom_xfer_done_callback a st rx).2.2 = true
    ∧ (__iccom_xfer_done_callback a st rx).1.rx_messages = st.rx_messages
    ∧ (__iccom_xfer_done_callback a st rx).1.last_rx_package_id
        = st.last_rx_package_id
    ∧ (__iccom_xfer_done_callback a st rx).1.statistics.packages_duplicated_received
        = st.statistics.packages_duplicated_received + 1
    ∧ (__iccom_xfer_done_callback a st rx).1.statistics.packets_received_ok
        = st.statistics.packets_received_ok
    ∧ (__iccom_xfer_done_callback a st rx).1.statistics.messages_received_ok
        = st.statistics.messages_received_ok
    ∧ (__iccom_xfer_done_callback a st rx).1.data_xfer_stage = false
    ∧ (__iccom_xfer_done_callback a st rx).1.closing = false := by
  have hnlt : ¬ __iccom_verify_package_data rx < 0 := by omega
  unfold __iccom_xfer_done_callback
  simp [hclosing, hstage, hnlt, hdup]

/-- In the ack stage the callback never touches the RX message storage,
`last_rx_package_id` or the closing flag, and flips back to the data
stage. -/
theorem xfer_done_ack_stage_preserves (a : Nat) (st : iccom_dev)
    (fr : iccom_package)
    (hstage : st.data_xfer_stage = false)
    (hclosing : st.closing = false) :
    (__iccom_xfer_done_callback a st fr).1.last_rx_package_id
        = st.last_rx_package_id
    ∧ (__iccom_xfer_done_callback a st fr).1.rx_messages = st.rx_messages
    ∧ (__iccom_xfer_done_callback a st fr).1.data_xfer_stage = true
    ∧ (__iccom_xfer_done_callback a st fr).1.closing = false := by
  unfold __iccom_xfer_done_callback
  simp only [hclosing, Bool.false_eq_true, if_false, hstage]
  by_cases hack : __iccom_verify_ack a fr
  · simp only [hack, if_true]
    refine ⟨?_, ?_, ?_, ?_⟩ <;>
      simp [queue_step_forward_keeps_last_rx, queue_step_forward_keeps_rx_messages
        , queue_step_forward_keeps_stage, queue_step_forward_keeps_closing
        , hstage, hclosing]
  · simp [hack, hstage, hclosing]

/-- The result code of `__iccom_process_package_payload` depends only on
the RX message storage of the state (not on its statistics or TX
fields). -/
theorem process_package_payload_code_congr (st1 st2 : iccom_dev)
    (w : List Nat) (h : st1.rx_messages = st2.rx_messages) :
    (__iccom_process_package_payload st1 w).1
      = (__iccom_process_package_payload st2 w).1 := by
  unfold __iccom_process_package_payload
  rw [h]
  rcases hl : __iccom_process_package_payload_loop st2.rx_messages w 0 0
      (w.length + 1) with ⟨code, storage, pd, ct⟩
  simp only [hl]
  by_cases hc : code < 0 <;> simp [hc]

/-- `__iccom_process_package_payload` never changes the closing flag. -/
theorem process_package_payload_keeps_closing (st : iccom_dev)
    (w : List Nat) :
    (__iccom_process_package_payload st w).2.closing = st.closing := by
  unfold __iccom_process_package_payload
  rcases hl : __iccom_process_package_payload_loop st.rx_messages w 0 0
      (w.length + 1) with ⟨code, storage, pd, ct⟩
  simp only [hl]
  by_cases hc : code < 0 <;> simp [hc]

/-- `__iccom_process_package_payload` never changes `data_xfer_stage`. -/
theorem process_package_payload_keeps_stage (st : iccom_dev)
    (w : List Nat) :
    (__iccom_process_package_payload st w).2.data_xfer_stage
        = st.data_xfer_stage := by
  unfold __iccom_process_package_payload
  rcases hl : __iccom_process_package_payload_loop st.rx_messages w 0 0
      (w.length + 1) with ⟨code, storage, pd, ct⟩
  simp only [hl]
  by_cases hc : code < 0 <;> simp [hc]

/-- In the data stage, a valid received package with a fresh id whose
payload parses successfully is accepted: positive ACK and
`last_rx_package_id` updated to the received id. -/
theorem xfer_done_accept_success (a : Nat) (st : iccom_dev)
    (rx : iccom_package)
    (hstage : st.data_xfer_stage = true)
    (hclosing : st.closing = false)
    (hvalid : 0 ≤ __iccom_verify_package_data rx)
    (hnew : ¬ __iccom_package_get_id rx = st.last_rx_package_id)
    (hparse : (__iccom_process_package_payload st
        ((rx.data.drop __iccom_package_payload_start_offset).take
          (__iccom_verify_package_data rx).toNat)).1 = 0) :
    (__iccom_xfer_done_callback a st rx).2.1 = .ack_xfer true
    ∧ (__iccom_xfer_done_callback a st rx).2.2 = true
    ∧ (__iccom_xfer_done_callback a st rx).1.last_rx_package_id
        = __iccom_package_get_id rx
    ∧ (__iccom_xfer_done_callback a st rx).1.data_xfer_stage = false
    ∧ (__iccom_xfer_done_callback a st rx).1.closing = false := by
  have hnlt : ¬ __iccom_verify_package_data rx < 0 := by omega
  unfold __iccom_xfer_done_callback
  simp only [hclosing, Bool.false_eq_true, if_false, hstage, if_true, hnlt
    , beq_iff_eq, hnew]
  split
  · rename_i h
    exact (h ((process_package_payload_code_congr _ st _ (by rfl)).trans hparse)).elim
  · refine ⟨?_, ?_, ?_, ?_, ?_⟩ <;>
      simp [process_package_payload_keeps_stage
        , process_package_payload_keeps_closing, hclosing]

/-- C8 — Duplicate suppression end-to-end (spec scenario S3): a valid
package with a fresh id whose payload parses is accepted (ACK,
`last_rx_package_id` recorded); the intervening ack half-frame leaves the
RX store and last accepted id untouched; the second delivery of the exact
same package is detected via `id == last_rx_package_id` and answered with
a positive ACK, counted as a duplicate, without parsing the payload or
modifying the RX message store or the packet/message statistics — so the
message enters the store exactly once. -/
theorem duplicate_package_acked_and_dropped
    (a : Nat) (st : iccom_dev) (rx afr : iccom_package)
    (hstage : st.data_xfer_stage = true)
    (hclosing : st.closing = false)
    (hvalid : 0 ≤ __iccom_verify_package_data rx)
    (hnew : ¬ __iccom_package_get_id rx = st.last_rx_package_id)
    (hparse : (__iccom_process_package_payload st
        ((rx.data.drop __iccom_package_payload_start_offset).take
          (__iccom_verify_package_data rx).toNat)).1 = 0) :
    (__iccom_xfer_done_callback a st rx).2.1 = .ack_xfer true
    ∧ (__iccom_xfer_done_callback a st rx).1.last_rx_package_id
        = __iccom_package_get_id rx
    ∧ (__iccom_xfer_done_callback a
          (__iccom_xfer_done_callback a st rx).1 afr).1.rx_messages
        = (__iccom_xfer_done_callback a st rx).1.rx_messages
    ∧ (__iccom_xfer_done_callback a
          (__iccom_xfer_done_callback a st rx).1 afr).1.last_rx_package_id
        = __iccom_package_get_id rx
    ∧ (__iccom_xfer_done_callback a
          (__iccom_xfer_done_callback a
            (__iccom_xfer_done_callback a st rx).1 afr).1 rx).2.1
        = .ack_xfer true
    ∧ (__iccom_xfer_done_callback a
          (__iccom_xfer_done_callback a
            (__iccom_xfer_done_callback a st rx).1 afr).1 rx).1.rx_messages
        = (__iccom_xfer_done_callback a
            (__iccom_xfer_done_callback a st rx).1 afr).1.rx_messages
    ∧ (__iccom_xfer_done_callback a
          (__iccom_xfer_done_callback a
            (__iccom_xfer_done_callback a st rx).1 afr).1
          rx).1.statistics.packages_duplicated_received
        = (__iccom_xfer_done_callback a
            (__iccom_xfer_done_callback a st rx).1
            afr).1.statistics.packages_duplicated_received + 1
    ∧ (__iccom_xfer_done_callback a
          (__iccom_xfer_done_callback a
            (__iccom_xfer_done_callback a st rx).1 afr).1
          rx).1.statistics.packets_received_ok
        = (__iccom_xfer_done_callback a
            (__iccom_xfer_done_callback a st rx).1
            afr).1.statistics.packets_received_ok
    ∧ (__iccom_xfer_done_callback a
          (__iccom_xfer_done_callback a
            (__iccom_xfer_done_callback a st rx).1 afr).1
          rx).1.statistics.messages_received_ok
        = (__iccom_xfer_done_callback a
            (__iccom_xfer_done_callback a st rx).1
            afr).1.statistics.messages_received_ok := by
  obtain ⟨hq1, _, hlast1, hstage1, hclosing1⟩ :=
    xfer_done_accept_success a st rx hstage hclosing hvalid hnew hparse
  obtain ⟨hlast2, hrx2, hstage2, hclosing2⟩ :=
    xfer_done_ack_stage_preserves a (__iccom_xfer_done_callback a st rx).1
      afr hstage1 hclosing1
  have hdup3 : __iccom_package_get_id rx
      = (__iccom_xfer_done_callback a
          (__iccom_xfer_done_callback a st rx).1 afr).1.last_rx_package_id := by
    rw [hlast2, hlast1]
  obtain ⟨hq3, _, hrx3, _, hdupcnt3, hpk3, hmsg3, _, _⟩ :=
    xfer_done_duplicate_branch a
      (__iccom_xfer_done_callback a
        (__iccom_xfer_done_callback a st rx).1 afr).1 rx
      hstage2 hclosing2 hvalid hdup3
  exact ⟨hq1, hlast1, hrx2, by rw [hlast2, hlast1], hq3, hrx3, hdupcnt3
    , hpk3, hmsg3⟩

set_option maxRecDepth 40000 in
/-- Witness for the C8 theorem: the freshly initialized engine receives the
valid package `rx_test_package` (id 42) twice, with a positive-ACK
half-frame in between. -/
theorem duplicate_package_acked_and_dropped_witness :
    (__iccom_xfer_done_callback 1 init64 rx_test_package).2.1 = .ack_xfer true
    ∧ (__iccom_xfer_done_callback 1 init64 rx_test_package).1.last_rx_package_id
        = __iccom_package_get_id rx_test_package
    ∧ (__iccom_xfer_done_callback 1
          (__iccom_xfer_done_callback 1 init64 rx_test_package).1
          ack_frame).1.rx_messages
        = (__iccom_xfer_done_callback 1 init64 rx_test_package).1.rx_messages
    ∧ (__iccom_xfer_done_callback 1
          (__iccom_xfer_done_callback 1 init64 rx_test_package).1
          ack_frame).1.last_rx_package_id
        = __iccom_package_get_id rx_test_package
    ∧ (__iccom_xfer_done_callback 1
          (__iccom_xfer_done_callback 1
            (__iccom_xfer_done_callback 1 init64 rx_test_package).1
            ack_frame).1 rx_test_package).2.1
        = .ack_xfer true
    ∧ (__iccom_xfer_done_callback 1
          (__iccom_xfer_done_callback 1
            (__iccom_xfer_done_callback 1 init64 rx_test_package).1
            ack_frame).1 rx_test_package).1.rx_messages
        = (__iccom_xfer_done_callback 1
            (__iccom_xfer_done_callback 1 init64 rx_test_package).1
            ack_frame).1.rx_messages
    ∧ (__iccom_xfer_done_callback 1
          (__iccom_xfer_done_callback 1
            (__iccom_xfer_done_callback 1 init64 rx_test_package).1
            ack_frame).1
          rx_test_package).1.statistics.packages_duplicated_received
        = (__iccom_xfer_done_callback 1
            (__iccom_xfer_done_callback 1 init64 rx_test_package).1
            ack_frame).1.statistics.packages_duplicated_received + 1
    ∧ (__iccom_xfer_done_callback 1
          (__iccom_xfer_done_callback 1
            (__iccom_xfer_done_callback 1 init64 rx_test_package).1
            ack_frame).1
          rx_test_package).1.statistics.packets_received_ok
        = (__iccom_xfer_done_callback 1
            (__iccom_xfer_done_callback 1 init64 rx_test_package).1
            ack_frame).1.statistics.packets_received_ok
    ∧ (__iccom_xfer_done_callback 1
          (__iccom_xfer_done_callback 1
            (__iccom_xfer_done_callback 1 init64 rx_test_package).1
            ack_frame).1
          rx_test_package).1.statistics.messages_received_ok
        = (__iccom_xfer_done_callback 1
            (__iccom_xfer_done_callback 1 init64 rx_test_package).1
            ack_frame).1.statistics.messages_received_ok :=
  duplicate_package_acked_and_dropped 1 init64 rx_test_package ack_frame
    rfl rfl (by decide) (by decide) (by decide)

set_option maxRecDepth 100000 in
/-- C9 — Message fragmentation into packets: when a packet is appended to
a package (`iccom_package_add_packet`), nothing is written if the free
space does not exceed the 4-byte packet header; otherwise the packet
carries `min(free space − 4, remaining bytes)` payload bytes and its
complete flag is set iff all remaining bytes fit, as recovered by parsing
the freshly written region.  Concretely (spec scenario S2), posting 100
bytes to a fresh engine with 64-byte frames yields a first message-bearing
package with one packet `{len 53, complete 0, payload B_0..B_52}` filling
its payload room exactly (57 bytes, no fill), and a second with
`{len 47, complete 1, payload B_53..B_99}` followed by 6 fill bytes. -/
theorem add_packet_chunks_and_final_flag
    (p : iccom_package) (data : List Nat) (channel : Nat)
    (hok : (__iccom_package_payload_size p).2 = true)
    (hsz : p.data.length ≤ 65536)
    (hch : channel ≤ ICCOM_PACKET_MAX_CHANNEL_ID)
    (hdata : data ≠ []) :
    ((__iccom_package_get_payload_free_space p).1
        ≤ ICCOM_PACKET_HEADER_SIZE_BYTES →
      iccom_package_add_packet p data channel = (0, p))
    ∧ (ICCOM_PACKET_HEADER_SIZE_BYTES
          < (__iccom_package_get_payload_free_space p).1 →
        (iccom_package_add_packet p data channel).1
          = min ((__iccom_package_get_payload_free_space p).1
              - ICCOM_PACKET_HEADER_SIZE_BYTES) data.length
        ∧ __iccom_packet_parse_into_struct
            (((iccom_package_add_packet p data channel).2.data.drop
                (__iccom_package_payload_start_offset
                  + (__iccom_package_payload_size p).1)).take
              (ICCOM_PACKET_HEADER_SIZE_BYTES
                + min ((__iccom_package_get_payload_free_space p).1
                    - ICCOM_PACKET_HEADER_SIZE_BYTES) data.length))
          = some { payload := data.take
                     (min ((__iccom_package_get_payload_free_space p).1
                         - ICCOM_PACKET_HEADER_SIZE_BYTES) data.length)
                   , payload_length :=
                     min ((__iccom_package_get_payload_free_space p).1
                         - ICCOM_PACKET_HEADER_SIZE_BYTES) data.length
                   , channel := channel
                   , finalizing := decide (data.length
                       ≤ (__iccom_package_get_payload_free_space p).1
                         - ICCOM_PACKET_HEADER_SIZE_BYTES) })
    ∧ post100_state.tx_data_packages.length = 3
    ∧ (post100_state.tx_data_packages.get? 1).bind (fun q =>
        __iccom_packet_parse_into_struct ((q.data.drop 3).take 57))
      = some { payload := (List.range 100).take 53, payload_length := 53
               , channel := 1, finalizing := false }
    ∧ (post100_state.tx_data_packages.get? 2).bind (fun q =>
        __iccom_packet_parse_into_struct ((q.data.drop 3).take 51))
      = some { payload := (List.range 100).drop 53, payload_length := 47
               , channel := 1, finalizing := true }
    ∧ (post100_state.tx_data_packages.get? 1).map (fun q =>
        (__iccom_package_payload_size q).1) = some 57
    ∧ (post100_state.tx_data_packages.get? 2).map (fun q =>
        (__iccom_package_payload_size q).1) = some 51
    ∧ (post100_state.tx_data_packages.get? 2).map (fun q =>
        (q.data.drop 54).take 6) = some (List.replicate 6 0xFF) := by
  obtain ⟨hps_iff, hps_val⟩ := payload_size_spec p
  have hd := hps_val hok
  have hdle := hps_iff.mp hok
  have hfree : (__iccom_package_get_payload_free_space p).1
      = __iccom_package_payload_room_size p - read2BE p.data 0 := by
    show __iccom_package_payload_room_size p
        - (__iccom_package_payload_size p).1 = _
    rw [hd]
  have hroom : __iccom_package_payload_room_size p = p.data.length - 7 := by
    show p.data.length - 2 - 1 - 4 = p.data.length - 7
    omega
  refine ⟨?_, ?_, by decide, by decide, by decide, by decide, by decide
    , by decide⟩
  · intro hle
    simp only [iccom_package_add_packet]
    rw [if_pos hle]
  · intro hgt
    have h4 : ¬ ((__iccom_package_get_payload_free_space p).1
        ≤ ICCOM_PACKET_HEADER_SIZE_BYTES) := by omega
    have hH : ICCOM_PACKET_HEADER_SIZE_BYTES = 4 := rfl
    have hfle : (__iccom_package_get_payload_free_space p).1
        ≤ p.data.length - 7 := by rw [hfree, hroom]; omega
    have hsz12 : 12 ≤ p.data.length := by
      rw [hH] at hgt; omega
    have hdlen : read2BE p.data 0 ≤ p.data.length - 7 := hroom ▸ hdle
    have hfree_eq : (__iccom_package_get_payload_free_space p).1
        = p.data.length - 7 - read2BE p.data 0 := by rw [hfree, hroom]
    have hlen1 : 1 ≤ data.length := List.length_pos.mpr hdata
    have hw1 : 1 ≤ min ((__iccom_package_get_payload_free_space p).1
        - ICCOM_PACKET_HEADER_SIZE_BYTES) data.length :=
      le_min (by omega) hlen1
    have hw_le : min ((__iccom_package_get_payload_free_space p).1
        - ICCOM_PACKET_HEADER_SIZE_BYTES) data.length
          ≤ (__iccom_package_get_payload_free_space p).1
            - ICCOM_PACKET_HEADER_SIZE_BYTES := min_le_left _ _
    have hw_led : min ((__iccom_package_get_payload_free_space p).1
        - ICCOM_PACKET_HEADER_SIZE_BYTES) data.length ≤ data.length :=
      min_le_right _ _
    have hw_lt : min ((__iccom_package_get_payload_free_space p).1
        - ICCOM_PACKET_HEADER_SIZE_BYTES) data.length < 65536 := by
      rw [hH] at hw_le
      omega
    have hstart : __iccom_package_free_space_start_offset p
        = 3 + read2BE p.data 0 := by
      show p.data.length - 4 - (__iccom_package_get_payload_free_space p).1
          = 3 + read2BE p.data 0
      rw [hfree_eq]
      omega
    have hq : (iccom_package_add_packet p data channel).2.data
        = write2BE (writeBytes p.data
            (__iccom_package_free_space_start_offset p)
            (iccom_packet_write_header
                (min ((__iccom_package_get_payload_free_space p).1
                    - ICCOM_PACKET_HEADER_SIZE_BYTES) data.length)
                channel
                ((min ((__iccom_package_get_payload_free_space p).1
                    - ICCOM_PACKET_HEADER_SIZE_BYTES) data.length)
                  == data.length)
              ++ data.take
                  (min ((__iccom_package_get_payload_free_space p).1
                      - ICCOM_PACKET_HEADER_SIZE_BYTES) data.length)))
            0
            ((__iccom_package_payload_size p).1
              + (ICCOM_PACKET_HEADER_SIZE_BYTES
                + min ((__iccom_package_get_payload_free_space p).1
                    - ICCOM_PACKET_HEADER_SIZE_BYTES) data.length)) := by
      simp only [iccom_package_add_packet]
      rw [if_neg h4]
      rfl
    have hbytes_len : (iccom_packet_write_header
        (min ((__iccom_package_get_payload_free_space p).1
            - ICCOM_PACKET_HEADER_SIZE_BYTES) data.length) channel
        ((min ((__iccom_package_get_payload_free_space p).1
            - ICCOM_PACKET_HEADER_SIZE_BYTES) data.length) == data.length)
          ++ data.take (min ((__iccom_package_get_payload_free_space p).1
              - ICCOM_PACKET_HEADER_SIZE_BYTES) data.length)).length
        = 4 + min ((__iccom_package_get_payload_free_space p).1
            - ICCOM_PACKET_HEADER_SIZE_BYTES) data.length := by
      simp [iccom_packet_write_header]
      omega
    have hbound : __iccom_package_free_space_start_offset p
        + (4 + min ((__iccom_package_get_payload_free_space p).1
            - ICCOM_PACKET_HEADER_SIZE_BYTES) data.length)
        ≤ p.data.length := by
      rw [hstart, hH] at *
      omega
    refine ⟨?_, ?_⟩
    · simp only [iccom_package_add_packet]
      rw [if_neg h4]
    · have hwindow :
          ((iccom_package_add_packet p data channel).2.data.drop
              (__iccom_package_payload_start_offset
                + (__iccom_package_payload_size p).1)).take
            (ICCOM_PACKET_HEADER_SIZE_BYTES
              + min ((__iccom_package_get_payload_free_space p).1
                  - ICCOM_PACKET_HEADER_SIZE_BYTES) data.length)
          = iccom_packet_write_header
              (min ((__iccom_package_get_payload_free_space p).1
                  - ICCOM_PACKET_HEADER_SIZE_BYTES) data.length) channel
              ((min ((__iccom_package_get_payload_free_space p).1
                  - ICCOM_PACKET_HEADER_SIZE_BYTES) data.length)
                == data.length)
            ++ data.take (min ((__iccom_package_get_payload_free_space p).1
                - ICCOM_PACKET_HEADER_SIZE_BYTES) data.length) := by
        rw [hq]
        have hpso : __iccom_package_payload_start_offset = 3 := rfl
        rw [hpso, hd]
        show ((writeBytes (writeBytes p.data
            (__iccom_package_free_space_start_offset p) _) 0 _).drop
              (3 + read2BE p.data 0)).take _ = _
        rw [drop_writeBytes_of_le _ 0 _ (3 + read2BE p.data 0)
            (by simp; omega)
            (by rw [writeBytes_length _ _ _ (hbytes_len ▸ hbound)]; simp
                omega)]
        rw [hstart] at hbound ⊢
        rw [drop_writeBytes p.data _ _ (by omega)]
        rw [hH]
        exact List.take_left' hbytes_len
      rw [hwindow]
      have hflag : ((min ((__iccom_package_get_payload_free_space p).1
          - ICCOM_PACKET_HEADER_SIZE_BYTES) data.length) == data.length)
            = decide (data.length
              ≤ (__iccom_package_get_payload_free_space p).1
                - ICCOM_PACKET_HEADER_SIZE_BYTES) := by
        by_cases hc : data.length
            ≤ (__iccom_package_get_payload_free_space p).1
              - ICCOM_PACKET_HEADER_SIZE_BYTES
        · rw [Nat.min_eq_right hc]
          simp [hc]
        · rw [Nat.min_eq_left (by omega)]
          have hne : (__iccom_package_get_payload_free_space p).1
              - ICCOM_PACKET_HEADER_SIZE_BYTES ≠ data.length := by omega
          simp [hc, hne]
      rw [← hflag]
      exact parse_write_header _ channel _ _
        (by rw [List.length_take]; exact Nat.min_eq_left hw_led)
        hw_lt hch hw1

/-- Witness for the C9 theorem: appending 3 message bytes on channel 5 to
the valid package `rx_test_package` (free space 50). -/
theorem add_packet_chunks_and_final_flag_witness :
    (iccom_package_add_packet rx_test_package [1, 2, 3] 5).1
      = min ((__iccom_package_get_payload_free_space rx_test_package).1
          - ICCOM_PACKET_HEADER_SIZE_BYTES) ([1, 2, 3] : List Nat).length :=
  ((add_packet_chunks_and_final_flag rx_test_package [1, 2, 3] 5 (by decide)
      (by decide) (by decide) (by decide)).2.1 (by decide)).1

/-- Writing byte-valued data into a byte-valued buffer keeps it
byte-valued. -/
theorem mem_writeBytes_lt (l : List Nat) (off : Nat) (bs : List Nat)
    (hl : ∀ b ∈ l, b < 256) (hbs : ∀ b ∈ bs, b < 256) :
    ∀ b ∈ writeBytes l off bs, b < 256 := by
  intro b hb
  simp only [writeBytes, List.mem_append] at hb
  rcases hb with (hb | hb) | hb
  · exact hl b (List.mem_of_mem_take hb)
  · exact hbs b hb
  · exact hl b (List.mem_of_mem_drop hb)

/-- Reading back a just-stored big-endian 16-bit value. -/
theorem read2BE_write2BE (l : List Nat) (off v : Nat)
    (hoff : off + 2 ≤ l.length) :
    read2BE (write2BE l off v) off = v % 65536 := by
  unfold read2BE write2BE
  rw [getByte_writeBytes_in l off _ off (le_refl off) (by simp) (by omega)]
  rw [getByte_writeBytes_in l off _ (off + 1) (by omega) (by simp) (by omega)]
  rw [Nat.sub_self, show off + 1 - off = 1 by omega]
  simp only [List.getD_cons_zero, List.getD_cons_succ]
  omega

/-- Reading back a just-stored little-endian 32-bit value. -/
theorem read4LE_write4LE (l : List Nat) (off v : Nat)
    (hoff : off + 4 ≤ l.length) (hv : v < 4294967296) :
    read4LE (write4LE l off v) off = v := by
  unfold read4LE write4LE
  rw [getByte_writeBytes_in l off _ off (le_refl off) (by simp) (by omega)]
  rw [getByte_writeBytes_in l off _ (off + 1) (by omega) (by simp) (by omega)]
  rw [getByte_writeBytes_in l off _ (off + 2) (by omega) (by simp) (by omega)]
  rw [getByte_writeBytes_in l off _ (off + 3) (by omega) (by simp) (by omega)]
  rw [Nat.sub_self, show off + 1 - off = 1 by omega
     , show off + 2 - off = 2 by omega, show off + 3 - off = 3 by omega]
  simp only [List.getD_cons_zero, List.getD_cons_succ]
  omega

/-- A write at offset 2 or beyond does not change the declared payload
length field. -/
theorem read2BE_writeBytes_ge2 (l : List Nat) (off : Nat) (bs : List Nat)
    (hoff : 2 ≤ off) (hle : off ≤ l.length) :
    read2BE (writeBytes l off bs) 0 = read2BE l 0 := by
  unfold read2BE
  rw [getByte_writeBytes_lt l off bs 0 (by omega) hle]
  rw [getByte_writeBytes_lt l off bs 1 (by omega) hle]

/-- The payload-size pair depends only on the declared length and the
frame size. -/
theorem payload_size_congr (p q : iccom_package)
    (h1 : read2BE q.data 0 = read2BE p.data 0)
    (h2 : q.data.length = p.data.length) :
    __iccom_package_payload_size q = __iccom_package_payload_size p := by
  unfold __iccom_package_payload_size __iccom_package_payload_room_size
    iccom_package.size
  rw [h1, h2]

/-- `updateLast` replaces exactly the last element: the result is the
original list minus its last element, plus the image of a member. -/
theorem updateLast_decomp (f : α → α) (l : List α) (h : l ≠ []) :
    ∃ x ∈ l, updateLast f l = l.dropLast ++ [f x] := by
  induction l with
  | nil => exact absurd rfl h
  | cons a rest ih =>
      cases rest with
      | nil => exact ⟨a, by simp, by simp [updateLast]⟩
      | cons b rest2 =>
          obtain ⟨x, hx, heq⟩ := ih (by simp)
          refine ⟨x, List.mem_cons_of_mem a hx, ?_⟩
          show a :: updateLast f (b :: rest2) = _
          rw [heq]
          rfl

/-- Elements of `updateLast f l` are either non-last elements of `l` or
the `f`-image of an element of `l`. -/
theorem mem_updateLast (f : α → α) (l : List α) (h : l ≠ []) (p : α)
    (hp : p ∈ updateLast f l) : p ∈ l.dropLast ∨ ∃ q ∈ l, p = f q := by
  obtain ⟨x, hx, heq⟩ := updateLast_decomp f l h
  rw [heq, List.mem_append] at hp
  rcases hp with hp | hp
  · exact Or.inl hp
  · exact Or.inr ⟨x, hx, List.mem_singleton.mp hp⟩

/-- `__iccom_package_set_payload_size` produces a well-formed package on
any byte-valued frame of the configured size, as long as the (truncated)
stored length fits the payload room. -/
theorem pkg_wf_set_payload_size (sz : Nat) (p : iccom_package) (n : Nat)
    (hlen : p.data.length = sz) (hb : ∀ b ∈ p.data, b < 256)
    (hsz : 12 ≤ sz) (hn : n % 65536 ≤ sz - 7) :
    pkg_wf sz (__iccom_package_set_payload_size p n) := by
  have hlen2 : (__iccom_package_set_payload_size p n).data.length = sz := by
    show (write2BE p.data 0 n).length = sz
    unfold write2BE
    rw [writeBytes_length _ _ _ (by simp; omega)]
    exact hlen
  refine ⟨hlen2, ?_, ?_⟩
  · have hread : read2BE (__iccom_package_set_payload_size p n).data 0
        = n % 65536 := by
      show read2BE (write2BE p.data 0 n) 0 = n % 65536
      exact read2BE_write2BE p.data 0 n (by omega)
    unfold __iccom_package_payload_size
    rw [hread]
    have hroom : __iccom_package_payload_room_size
        (__iccom_package_set_payload_size p n) = sz - 7 := by
      show (__iccom_package_set_payload_size p n).data.length - 2 - 1 - 4
          = sz - 7
      rw [hlen2]
      omega
    rw [hroom, if_pos hn]
  · show ∀ b ∈ write2BE p.data 0 n, b < 256
    unfold write2BE
    refine mem_writeBytes_lt _ _ _ hb ?_
    intro b hbm
    simp only [List.mem_cons, List.not_mem_nil, or_false] at hbm
    rcases hbm with rfl | rfl <;> omega

/-- `__iccom_package_set_id` preserves package well-formedness. -/
theorem pkg_wf_set_id (sz : Nat) (p : iccom_package) (id : Int)
    (hw : pkg_wf sz p) (hsz : 12 ≤ sz) :
    pkg_wf sz (__iccom_package_set_id p id) := by
  obtain ⟨hlen, hok, hb⟩ := hw
  have hlen2 : (__iccom_package_set_id p id).data.length = sz := by
    show (writeBytes p.data ICCOM_PACKAGE_PAYLOAD_DATA_LENGTH_FIELD_SIZE_BYTES
        [(id % 256).toNat]).length = sz
    rw [writeBytes_length _ _ _ (by simp [ICCOM_PACKAGE_PAYLOAD_DATA_LENGTH_FIELD_SIZE_BYTES]; omega)]
    exact hlen
  refine ⟨hlen2, ?_, ?_⟩
  · have hread : read2BE (__iccom_package_set_id p id).data 0
        = read2BE p.data 0 := by
      show read2BE (writeBytes p.data 2 [(id % 256).toNat]) 0 = read2BE p.data 0
      unfold read2BE
      rw [getByte_writeBytes_lt _ _ _ 0 (by omega) (by omega)]
      rw [getByte_writeBytes_lt _ _ _ 1 (by omega) (by omega)]
    rw [payload_size_congr p _ hread (hlen2.trans hlen.symm)]
    exact hok
  · show ∀ b ∈ writeBytes p.data 2 [(id % 256).toNat], b < 256
    refine mem_writeBytes_lt _ _ _ hb ?_
    intro b hbm
    simp only [List.mem_cons, List.not_mem_nil, or_false] at hbm
    subst hbm
    have h1 : (0 : Int) ≤ id % 256 := Int.emod_nonneg id (by norm_num)
    have h2 : id % 256 < 256 := Int.emod_lt_of_pos id (by norm_num)
    omega

/-- `__iccom_package_init` produces a well-formed package. -/
theorem pkg_wf_package_init (sz : Nat) (hsz : 12 ≤ sz) :
    pkg_wf sz (__iccom_package_init sz) := by
  refine pkg_wf_set_payload_size sz ⟨List.replicate sz 0⟩ 0 (by simp) ?_ hsz
    (by omega)
  intro b hbm
  rw [List.eq_of_mem_replicate hbm]
  omega

/-- Free payload space and its start offset of a well-formed package, in
terms of the declared payload length. -/
theorem free_space_facts (sz : Nat) (p : iccom_package) (hw : pkg_wf sz p)
    (hsz : 12 ≤ sz) :
    (__iccom_package_get_payload_free_space p).1
        = sz - 7 - read2BE p.data 0
    ∧ __iccom_package_free_space_start_offset p = 3 + read2BE p.data 0
    ∧ read2BE p.data 0 ≤ sz - 7 := by
  obtain ⟨hlen, hok, hb⟩ := hw
  obtain ⟨hps_iff, hps_val⟩ := payload_size_spec p
  have hroom : __iccom_package_payload_room_size p = sz - 7 := by
    show p.data.length - 2 - 1 - 4 = sz - 7
    omega
  have hd : read2BE p.data 0 ≤ sz - 7 := hroom ▸ hps_iff.mp hok
  have hfree : (__iccom_package_get_payload_free_space p).1
      = sz - 7 - read2BE p.data 0 := by
    unfold __iccom_package_get_payload_free_space
    rcases hps : __iccom_package_payload_size p with ⟨psize, ok⟩
    simp only
    have hpv : psize = read2BE p.data 0 :=
      (congrArg Prod.fst hps).symm.trans (hps_val hok)
    rw [hroom, hpv]
  refine ⟨hfree, ?_, hd⟩
  show p.data.length - 4 - (__iccom_package_get_payload_free_space p).1 = _
  rw [hfree]
  omega

/-- Filling the unused payload with `0xFF` preserves well-formedness and
the declared length, and makes the whole declared-to-CRC gap `0xFF`. -/
theorem fill_unused_facts (sz : Nat) (p : iccom_package) (hw : pkg_wf sz p)
    (hsz : 12 ≤ sz) :
    pkg_wf sz (__iccom_package_fill_unused_payload p
        ICCOM_PACKAGE_EMPTY_PAYLOAD_VALUE)
    ∧ read2BE (__iccom_package_fill_unused_payload p
        ICCOM_PACKAGE_EMPTY_PAYLOAD_VALUE).data 0 = read2BE p.data 0
    ∧ ∀ i, 3 + read2BE p.data 0 ≤ i → i < sz - 4 →
        getByte (__iccom_package_fill_unused_payload p
          ICCOM_PACKAGE_EMPTY_PAYLOAD_VALUE).data i
          = ICCOM_PACKAGE_EMPTY_PAYLOAD_VALUE := by
  obtain ⟨hfree, hstart, hd⟩ := free_space_facts sz p hw hsz
  obtain ⟨hlen, hok, hb⟩ := hw
  by_cases hfree0 : (__iccom_package_get_payload_free_space p).1 = 0
  · have heq : __iccom_package_fill_unused_payload p
        ICCOM_PACKAGE_EMPTY_PAYLOAD_VALUE = p := by
      unfold __iccom_package_fill_unused_payload
      rw [if_pos hfree0]
    rw [heq]
    refine ⟨⟨hlen, hok, hb⟩, rfl, ?_⟩
    intro i h1 h2
    rw [hfree] at hfree0
    omega
  · have heq : __iccom_package_fill_unused_payload p
        ICCOM_PACKAGE_EMPTY_PAYLOAD_VALUE
        = ⟨writeBytes p.data (3 + read2BE p.data 0)
            (List.replicate (sz - 7 - read2BE p.data 0)
              ICCOM_PACKAGE_EMPTY_PAYLOAD_VALUE)⟩ := by
      unfold __iccom_package_fill_unused_payload
      rw [if_neg hfree0, hstart, hfree]
    rw [heq]
    have hlen2 : (writeBytes p.data (3 + read2BE p.data 0)
        (List.replicate (sz - 7 - read2BE p.data 0)
          ICCOM_PACKAGE_EMPTY_PAYLOAD_VALUE)).length = sz := by
      rw [writeBytes_length _ _ _ (by rw [List.length_replicate]; omega)]
      exact hlen
    have hread : read2BE (writeBytes p.data (3 + read2BE p.data 0)
        (List.replicate (sz - 7 - read2BE p.data 0)
          ICCOM_PACKAGE_EMPTY_PAYLOAD_VALUE)) 0 = read2BE p.data 0 :=
      read2BE_writeBytes_ge2 p.data (3 + read2BE p.data 0)
        (List.replicate (sz - 7 - read2BE p.data 0)
          ICCOM_PACKAGE_EMPTY_PAYLOAD_VALUE) (by omega) (by omega)
    refine ⟨⟨hlen2, ?_, ?_⟩, hread, ?_⟩
    · rw [payload_size_congr p
            ⟨writeBytes p.data (3 + read2BE p.data 0)
              (List.replicate (sz - 7 - read2BE p.data 0)
                ICCOM_PACKAGE_EMPTY_PAYLOAD_VALUE)⟩
            hread (hlen2.trans hlen.symm)]
      exact hok
    · refine mem_writeBytes_lt _ _ _ hb ?_
      intro b hbm
      rw [List.eq_of_mem_replicate hbm]
      show (0xFF : Nat) < 256
      omega
    · intro i h1 h2
      rw [getByte_writeBytes_in _ _ _ i h1
            (by rw [List.length_replicate]; omega) (by omega)]
      rw [List.getD_eq_getElem _ _ (by rw [List.length_replicate]; omega)]
      simp

/-- `__iccom_package_set_src` preserves well-formedness, the declared
length and all bytes before the CRC field, stores the given CRC, and does
not change the recomputed CRC. -/
theorem set_src_facts (sz : Nat) (p : iccom_package) (v : Nat)
    (hw : pkg_wf sz p) (hsz : 12 ≤ sz) :
    pkg_wf sz (__iccom_package_set_src p v)
    ∧ read2BE (__iccom_package_set_src p v).data 0 = read2BE p.data 0
    ∧ (∀ i, i < sz - 4 → getByte (__iccom_package_set_src p v).data i
        = getByte p.data i)
    ∧ (v < 4294967296 →
        __iccom_package_get_src (__iccom_package_set_src p v) = v)
    ∧ __iccom_package_compute_src (__iccom_package_set_src p v)
        = __iccom_package_compute_src p := by
  obtain ⟨hlen, hok, hb⟩ := hw
  have hsize : p.size - ICCOM_PACKAGE_CRC_FIELD_SIZE_BYTES = sz - 4 := by
    show p.data.length - 4 = sz - 4
    omega
  have heq : __iccom_package_set_src p v
      = ⟨writeBytes p.data (sz - 4)
          [v % 256, v / 256 % 256, v / 65536 % 256, v / 16777216 % 256]⟩ := by
    show (⟨write4LE p.data (p.size - ICCOM_PACKAGE_CRC_FIELD_SIZE_BYTES) v⟩
        : iccom_package) = _
    rw [hsize]
    rfl
  have hlen2 : (writeBytes p.data (sz - 4)
      [v % 256, v / 256 % 256, v / 65536 % 256, v / 16777216 % 256]).length
        = sz := by
    rw [writeBytes_length _ _ _ (by simp; omega)]
    exact hlen
  have hread : read2BE (writeBytes p.data (sz - 4)
      [v % 256, v / 256 % 256, v / 65536 % 256, v / 16777216 % 256]) 0
        = read2BE p.data 0 :=
    read2BE_writeBytes_ge2 p.data (sz - 4)
      [v % 256, v / 256 % 256, v / 65536 % 256, v / 16777216 % 256]
      (by omega) (by omega)
  refine ⟨⟨by rw [heq]; exact hlen2, ?_, ?_⟩, ?_, ?_, ?_, ?_⟩
  · rw [heq, payload_size_congr p
          ⟨writeBytes p.data (sz - 4)
            [v % 256, v / 256 % 256, v / 65536 % 256, v / 16777216 % 256]⟩
          hread (hlen2.trans hlen.symm)]
    exact hok
  · rw [heq]
    refine mem_writeBytes_lt _ _ _ hb ?_
    intro b hbm
    simp only [List.mem_cons, List.not_mem_nil, or_false] at hbm
    rcases hbm with rfl | rfl | rfl | rfl <;> omega
  · rw [heq]
    exact hread
  · intro i hi
    rw [heq]
    exact getByte_writeBytes_lt p.data (sz - 4)
      [v % 256, v / 256 % 256, v / 65536 % 256, v / 16777216 % 256] i
      (by omega) (by omega)
  · intro hv
    have hsize2 : (__iccom_package_set_src p v).size
        - ICCOM_PACKAGE_CRC_FIELD_SIZE_BYTES = sz - 4 := by
      show (__iccom_package_set_src p v).data.length - 4 = sz - 4
      rw [heq]
      show (writeBytes p.data (sz - 4) _).length - 4 = sz - 4
      rw [hlen2]
    show read4LE (__iccom_package_set_src p v).data
        ((__iccom_package_set_src p v).size
          - ICCOM_PACKAGE_CRC_FIELD_SIZE_BYTES) = v
    rw [hsize2, heq]
    show read4LE (write4LE p.data (sz - 4) v) (sz - 4) = v
    exact read4LE_write4LE p.data (sz - 4) v (by omega) hv
  · have hsize2 : (__iccom_package_set_src p v).size
        - ICCOM_PACKAGE_CRC_FIELD_SIZE_BYTES = sz - 4 := by
      show (__iccom_package_set_src p v).data.length - 4 = sz - 4
      rw [heq]
      show (writeBytes p.data (sz - 4) _).length - 4 = sz - 4
      rw [hlen2]
    show __iccom_compute_crc32 ((__iccom_package_set_src p v).data.take
        ((__iccom_package_set_src p v).size
          - ICCOM_PACKAGE_CRC_FIELD_SIZE_BYTES))
      = __iccom_compute_crc32 (p.data.take
          (p.size - ICCOM_PACKAGE_CRC_FIELD_SIZE_BYTES))
    rw [hsize2, hsize, heq]
    show __iccom_compute_crc32 ((writeBytes p.data (sz - 4) _).take (sz - 4))
        = _
    rw [take_writeBytes _ _ _ _ (le_refl _) (by omega)]

/-- A package whose free payload area checks out and whose stored CRC
matches the recomputed CRC validates as `Valid` (non-negative result). -/
theorem verify_nonneg_of (p : iccom_package)
    (hcu : __iccom_package_check_unused_payload p
        ICCOM_PACKAGE_EMPTY_PAYLOAD_VALUE = true)
    (hcrc : __iccom_package_get_src p = __iccom_package_compute_src p) :
    0 ≤ __iccom_verify_package_data p := by
  have hok : (__iccom_package_payload_size p).2 = true := by
    by_contra hok
    unfold __iccom_package_check_unused_payload at hcu
    rcases hgf : __iccom_package_get_payload_free_space p with ⟨free, ok⟩
    have hok2 : ok = (__iccom_package_payload_size p).2 :=
      (congrArg Prod.snd hgf).symm
    rw [hgf] at hcu
    simp only at hcu
    rw [show ok = false from hok2.trans (eq_false_of_ne_true hok)] at hcu
    simp at hcu
  have hcrcb : __iccom_verify_package_crc p = true := by
    unfold __iccom_verify_package_crc
    exact beq_iff_eq.mpr hcrc
  unfold __iccom_verify_package_data
  rcases hps : __iccom_package_payload_size p with ⟨psize, ok⟩
  simp only
  rw [show ok = true from (congrArg Prod.snd hps).symm.trans hok, hcu, hcrcb]
  simp

/-- `__iccom_package_finalize` of a well-formed package is well-formed and
passes `__iccom_verify_package_data`. -/
theorem finalize_wf_valid (sz : Nat) (p : iccom_package)
    (hw : pkg_wf sz p) (hsz : 12 ≤ sz) :
    pkg_wf sz (__iccom_package_finalize p)
    ∧ 0 ≤ __iccom_verify_package_data (__iccom_package_finalize p) := by
  obtain ⟨hfw, hfr, hfregion⟩ := fill_unused_facts sz p hw hsz
  obtain ⟨hfree, hstart, hd⟩ := free_space_facts sz p hw hsz
  have hcrclt : __iccom_package_compute_src
      (__iccom_package_fill_unused_payload p
        ICCOM_PACKAGE_EMPTY_PAYLOAD_VALUE) < 4294967296 := by
    unfold __iccom_package_compute_src
    have := __iccom_compute_crc32_lt
      ((__iccom_package_fill_unused_payload p
          ICCOM_PACKAGE_EMPTY_PAYLOAD_VALUE).data.take
        ((__iccom_package_fill_unused_payload p
            ICCOM_PACKAGE_EMPTY_PAYLOAD_VALUE).size
          - ICCOM_PACKAGE_CRC_FIELD_SIZE_BYTES))
    omega
  obtain ⟨hqw, hqr, hqbytes, hqsrc, hqcomp⟩ :=
    set_src_facts sz (__iccom_package_fill_unused_payload p
        ICCOM_PACKAGE_EMPTY_PAYLOAD_VALUE)
      (__iccom_package_compute_src (__iccom_package_fill_unused_payload p
        ICCOM_PACKAGE_EMPTY_PAYLOAD_VALUE)) hfw hsz
  have hfin : __iccom_package_finalize p
      = __iccom_package_set_src
          (__iccom_package_fill_unused_payload p
            ICCOM_PACKAGE_EMPTY_PAYLOAD_VALUE)
          (__iccom_package_compute_src
            (__iccom_package_fill_unused_payload p
              ICCOM_PACKAGE_EMPTY_PAYLOAD_VALUE)) := rfl
  rw [hfin]
  refine ⟨hqw, verify_nonneg_of _ ?_ ?_⟩
  · rw [check_unused_payload_iff _ (getByte_lt_of_mem _ hqw.2.2)]
    refine ⟨hqw.2.1, ?_⟩
    obtain ⟨hqfree, hqstart, hqd⟩ := free_space_facts sz _ hqw hsz
    have hrq : read2BE (__iccom_package_set_src
        (__iccom_package_fill_unused_payload p
          ICCOM_PACKAGE_EMPTY_PAYLOAD_VALUE)
        (__iccom_package_compute_src
          (__iccom_package_fill_unused_payload p
            ICCOM_PACKAGE_EMPTY_PAYLOAD_VALUE))).data 0
          = read2BE p.data 0 := hqr.trans hfr
    intro j hj
    rw [hqfree, hrq] at hj
    rw [hqstart, hrq]
    rw [hqbytes _ (by omega)]
    have h255 : ICCOM_PACKAGE_EMPTY_PAYLOAD_VALUE = 0xFF := rfl
    rw [← h255]
    exact hfregion _ (by omega) (by omega)
  · rw [hqsrc hcrclt, hqcomp]

/-- `__iccom_package_make_empty` of a byte-valued frame of the configured
size is well-formed and passes validation. -/
theorem make_empty_wf_valid (sz : Nat) (p : iccom_package)
    (hlen : p.data.length = sz) (hb : ∀ b ∈ p.data, b < 256)
    (hsz : 12 ≤ sz) :
    pkg_wf sz (__iccom_package_make_empty p)
    ∧ 0 ≤ __iccom_verify_package_data (__iccom_package_make_empty p) := by
  have hw0 : pkg_wf sz (__iccom_package_set_payload_size p 0) :=
    pkg_wf_set_payload_size sz p 0 hlen hb hsz (by omega)
  exact finalize_wf_valid sz _ hw0 hsz

/-- `iccom_package_add_packet` keeps the destination package well-formed
when the consumer payload is byte-valued. -/
theorem add_packet_wf (sz : Nat) (package : iccom_package)
    (payload : List Nat) (channel : Nat)
    (hw : pkg_wf sz package) (hsz : 12 ≤ sz)
    (hb : ∀ b ∈ payload, b < 256) :
    pkg_wf sz (iccom_package_add_packet package payload channel).2 := by
  obtain ⟨hfree, hstart, hd⟩ := free_space_facts sz package hw hsz
  obtain ⟨hps_iff, hps_val⟩ := payload_size_spec package
  obtain ⟨hlen, hok, hbp⟩ := hw
  unfold iccom_package_add_packet
  by_cases hguard : (__iccom_package_get_payload_free_space package).1
      ≤ ICCOM_PACKET_HEADER_SIZE_BYTES
  · rw [if_pos hguard]
    exact ⟨hlen, hok, hbp⟩
  · rw [if_neg hguard]
    simp only
    have hhdr : ICCOM_PACKET_HEADER_SIZE_BYTES = 4 := rfl
    rw [hhdr] at hguard
    rw [hhdr]
    have hwle : min ((__iccom_package_get_payload_free_space package).1 - 4)
        payload.length ≤ (__iccom_package_get_payload_free_space package).1
          - 4 := Nat.min_le_left _ _
    have hwle2 : min ((__iccom_package_get_payload_free_space package).1 - 4)
        payload.length ≤ payload.length := Nat.min_le_right _ _
    have hbytes_len : (iccom_packet_write_header
        (min ((__iccom_package_get_payload_free_space package).1 - 4)
          payload.length) channel
        ((min ((__iccom_package_get_payload_free_space package).1 - 4)
          payload.length) == payload.length)
        ++ payload.take
            (min ((__iccom_package_get_payload_free_space package).1 - 4)
              payload.length)).length
          = 4 + min ((__iccom_package_get_payload_free_space package).1 - 4)
              payload.length := by
      rw [List.length_append, List.length_take]
      show 4 + _ = _
      omega
    refine pkg_wf_set_payload_size sz _ _ ?_ ?_ hsz ?_
    · show (writeBytes package.data _ _).length = sz
      rw [writeBytes_length]
      · exact hlen
      · rw [hbytes_len, hstart, hfree]
        rw [hfree] at hwle
        omega
    · show ∀ b ∈ writeBytes package.data _ _, b < 256
      refine mem_writeBytes_lt _ _ _ hbp ?_
      intro b hbm
      rw [List.mem_append] at hbm
      rcases hbm with hbm | hbm
      · unfold iccom_packet_write_header iccom_packet_channel_lun
          iccom_packet_channel_sid at hbm
        simp only [List.mem_cons, List.not_mem_nil, or_false] at hbm
        have hlun : channel >>> 7 % 256 < 256 := Nat.mod_lt _ (by norm_num)
        rcases hbm with rfl | rfl | rfl | rfl
        · omega
        · omega
        · exact hlun
        · split <;> omega
      · exact hb b (List.mem_of_mem_take hbm)
    · have hval : (__iccom_package_payload_size package).1
          = read2BE package.data 0 := hps_val hok
      rw [hval]
      rw [hfree] at hwle
      have hle : read2BE package.data 0
          + (4 + min ((__iccom_package_get_payload_free_space package).1 - 4)
              payload.length) ≤ sz - 7 := by
        rw [hfree]
        omega
      calc (read2BE package.data 0
            + (4 + min ((__iccom_package_get_payload_free_space package).1 - 4)
                payload.length)) % 65536
          ≤ read2BE package.data 0
            + (4 + min ((__iccom_package_get_payload_free_space package).1 - 4)
                payload.length) := Nat.mod_le _ _
        _ ≤ sz - 7 := hle

/-- The TX queue invariant only depends on the queue field. -/
theorem tx_queue_invariant_congr (sz : Nat) (st1 st2 : iccom_dev)
    (h : st1.tx_data_packages = st2.tx_data_packages)
    (hinv : tx_queue_invariant sz st1) : tx_queue_invariant sz st2 := by
  unfold tx_queue_invariant at hinv ⊢
  rw [← h]
  exact hinv

/-- Non-last membership is preserved under a cons. -/
theorem mem_dropLast_cons (a : α) (l : List α) (p : α)
    (hp : p ∈ l.dropLast) : p ∈ (a :: l).dropLast := by
  cases l with
  | nil => simp at hp
  | cons b rest =>
      show p ∈ a :: (b :: rest).dropLast
      exact List.mem_cons_of_mem a hp

/-- The queue after `__iccom_enqueue_new_tx_data_package` on a non-empty
queue: the old queue with its tail finalized, plus a fresh package carrying
the next package id. -/
theorem enqueue_new_queue_eq (sz : Nat) (st : iccom_dev)
    (hne : st.tx_data_packages ≠ []) :
    (__iccom_enqueue_new_tx_data_package sz st).tx_data_packages
      = updateLast __iccom_package_finalize st.tx_data_packages
        ++ [__iccom_package_set_id (__iccom_package_init sz)
              st.next_tx_package_id] := by
  unfold __iccom_enqueue_new_tx_data_package __iccom_have_packages
    __iccom_get_next_package_id
  rcases hq : st.tx_data_packages with _ | ⟨a, rest⟩
  · exact absurd hq hne
  · simp

/-- `__iccom_queue_step_forward` with several queued packages drops the
head. -/
theorem step_forward_queue_multi (st : iccom_dev)
    (hlen : 2 ≤ st.tx_data_packages.length) :
    (__iccom_queue_step_forward st).2.tx_data_packages
      = st.tx_data_packages.tail := by
  unfold __iccom_queue_step_forward __iccom_have_multiple_packages
  rw [if_pos (by simpa using hlen)]

/-- `__iccom_queue_step_forward` with a single queued package re-ids it
and makes it empty again. -/
theorem step_forward_queue_single (st : iccom_dev) (a : iccom_package)
    (hq : st.tx_data_packages = [a]) :
    (__iccom_queue_step_forward st).2.tx_data_packages
      = [__iccom_package_make_empty
          (__iccom_package_set_id a st.next_tx_package_id)] := by
  unfold __iccom_queue_step_forward __iccom_have_multiple_packages
    __iccom_get_next_package_id
  rw [hq]
  simp

/-- `__iccom_enqueue_new_tx_data_package` preserves the TX queue
invariant. -/
theorem enqueue_new_invariant (sz : Nat) (st : iccom_dev)
    (hinv : tx_queue_invariant sz st) (hsz : 12 ≤ sz) :
    tx_queue_invariant sz (__iccom_enqueue_new_tx_data_package sz st) := by
  obtain ⟨hne, hwf, hval⟩ := hinv
  have hq := enqueue_new_queue_eq sz st hne
  have hwnew : pkg_wf sz (__iccom_package_set_id (__iccom_package_init sz)
      st.next_tx_package_id) :=
    pkg_wf_set_id sz _ _ (pkg_wf_package_init sz hsz) hsz
  refine ⟨?_, ?_, ?_⟩
  · rw [hq]
    simp
  · intro p hp
    rw [hq, List.mem_append] at hp
    rcases hp with hp | hp
    · rcases mem_updateLast _ _ hne p hp with hp | ⟨q, hq2, rfl⟩
      · exact hwf p (List.dropLast_subset _ hp)
      · exact (finalize_wf_valid sz q (hwf q hq2) hsz).1
    · have hps := List.mem_singleton.mp hp
      subst hps
      exact hwnew
  · intro p hp
    rw [hq, List.dropLast_concat] at hp
    rcases mem_updateLast _ _ hne p hp with hp | ⟨q, hq2, rfl⟩
    · exact hval p hp
    · exact (finalize_wf_valid sz q (hwf q hq2) hsz).2

/-- `__iccom_queue_step_forward` preserves the TX queue invariant. -/
theorem step_forward_invariant (sz : Nat) (st : iccom_dev)
    (hinv : tx_queue_invariant sz st) (hsz : 12 ≤ sz) :
    tx_queue_invariant sz (__iccom_queue_step_forward st).2 := by
  obtain ⟨hne, hwf, hval⟩ := hinv
  by_cases hmul : 2 ≤ st.tx_data_packages.length
  · have hq := step_forward_queue_multi st hmul
    rcases hqe : st.tx_data_packages with _ | ⟨a, rest⟩
    · exact absurd hqe hne
    · rw [hqe, List.tail_cons] at hq
      have hrest : rest ≠ [] := by
        rw [hqe] at hmul
        simp only [List.length_cons] at hmul
        exact List.ne_nil_of_length_pos (by omega)
      refine ⟨?_, ?_, ?_⟩
      · rw [hq]
        exact hrest
      · intro p hp
        rw [hq] at hp
        refine hwf p ?_
        rw [hqe]
        exact List.mem_cons_of_mem a hp
      · intro p hp
        rw [hq] at hp
        refine hval p ?_
        rw [hqe]
        exact mem_dropLast_cons a rest p hp
  · rcases hqe : st.tx_data_packages with _ | ⟨a, rest⟩
    · exact absurd hqe hne
    · have hrest : rest = [] := by
        rw [hqe] at hmul
        simp only [List.length_cons] at hmul
        have hr0 : rest.length = 0 := by omega
        exact List.eq_nil_of_length_eq_zero hr0
      subst hrest
      have hq := step_forward_queue_single st a hqe
      have hwa : pkg_wf sz a := hwf a (by rw [hqe]; simp)
      have hwid := pkg_wf_set_id sz a st.next_tx_package_id hwa hsz
      obtain ⟨hw2, hv2⟩ := make_empty_wf_valid sz
        (__iccom_package_set_id a st.next_tx_package_id) hwid.1 hwid.2.2 hsz
      refine ⟨?_, ?_, ?_⟩
      · rw [hq]
        simp
      · intro p hp
        rw [hq] at hp
        have hps := List.mem_singleton.mp hp
        subst hps
        exact hw2
      · intro p hp
        rw [hq] at hp
        simp at hp

/-- Finalizing the queue tail preserves the TX queue invariant. -/
theorem finalize_tail_invariant (sz : Nat) (st : iccom_dev)
    (hinv : tx_queue_invariant sz st) (hsz : 12 ≤ sz) :
    tx_queue_invariant sz
      { st with tx_data_packages :=
          updateLast __iccom_package_finalize st.tx_data_packages } := by
  obtain ⟨hne, hwf, hval⟩ := hinv
  refine ⟨?_, ?_, ?_⟩
  · show updateLast __iccom_package_finalize st.tx_data_packages ≠ []
    obtain ⟨x, hx, heq⟩ := updateLast_decomp __iccom_package_finalize _ hne
    rw [heq]
    simp
  · intro p hp
    rcases mem_updateLast _ _ hne p hp with hp | ⟨q, hq2, rfl⟩
    · exact hwf p (List.dropLast_subset _ hp)
    · exact (finalize_wf_valid sz q (hwf q hq2) hsz).1
  · intro p hp
    have hp2 : p ∈ (updateLast __iccom_package_finalize
        st.tx_data_packages).dropLast := hp
    obtain ⟨x, hx, heq⟩ := updateLast_decomp __iccom_package_finalize _ hne
    rw [heq, List.dropLast_concat] at hp2
    exact hval p hp2

/-- The append-message loop preserves the TX queue invariant for
byte-valued message data. -/
theorem append_loop_invariant (sz channel : Nat) (fuel : Nat)
    (st : iccom_dev) (data : List Nat)
    (hinv : tx_queue_invariant sz st) (hsz : 12 ≤ sz)
    (hb : ∀ b ∈ data, b < 256) :
    tx_queue_invariant sz
      (__iccom_queue_append_message_loop sz channel st data fuel) := by
  induction fuel generalizing st data with
  | zero => exact hinv
  | succ n ih =>
      unfold __iccom_queue_append_message_loop
      by_cases hdata : data.isEmpty = true
      · rw [if_pos hdata]
        exact hinv
      · rw [if_neg hdata]
        rcases hlast : __iccom_get_last_tx_package st with _ | dst
        · exact hinv
        · simp only
          have hdst_mem : dst ∈ st.tx_data_packages := by
            unfold __iccom_get_last_tx_package at hlast
            obtain ⟨h2, hx⟩ := List.mem_getLast?_eq_getLast hlast
            rw [hx]
            exact List.getLast_mem h2
          obtain ⟨hne, hwf, hval⟩ := hinv
          rcases hadd : iccom_package_add_packet dst data channel
            with ⟨bw, dst2⟩
          simp only
          by_cases hbw : bw = 0
          · rw [if_pos hbw]
            exact ih _ _ (enqueue_new_invariant sz st ⟨hne, hwf, hval⟩ hsz) hb
          · rw [if_neg hbw]
            refine ih _ _ ?_ ?_
            · have hdst2 : pkg_wf sz dst2 := by
                have h := add_packet_wf sz dst data channel
                  (hwf dst hdst_mem) hsz hb
                rw [hadd] at h
                exact h
              obtain ⟨x, hx, hupd⟩ :=
                updateLast_decomp (fun _ => dst2) st.tx_data_packages hne
              refine ⟨?_, ?_, ?_⟩
              · show updateLast (fun _ => dst2) st.tx_data_packages ≠ []
                rw [hupd]
                simp
              · intro p hp
                have hp2 : p ∈ updateLast (fun _ => dst2)
                    st.tx_data_packages := hp
                rw [hupd, List.mem_append] at hp2
                rcases hp2 with hp2 | hp2
                · exact hwf p (List.dropLast_subset _ hp2)
                · have hps := List.mem_singleton.mp hp2
                  subst hps
                  exact hdst2
              · intro p hp
                have hp2 : p ∈ (updateLast (fun _ => dst2)
                    st.tx_data_packages).dropLast := hp
                rw [hupd, List.dropLast_concat] at hp2
                exact hval p hp2
            · intro b hbm
              exact hb b (List.mem_of_mem_drop hbm)

/-- `__iccom_queue_append_message` preserves the TX queue invariant for
byte-valued message data. -/
theorem append_message_invariant (sz : Nat) (st : iccom_dev)
    (data : List Nat) (channel : Nat)
    (hinv : tx_queue_invariant sz st) (hsz : 12 ≤ sz)
    (hb : ∀ b ∈ data, b < 256) :
    tx_queue_invariant sz
      (__iccom_queue_append_message sz st data channel) := by
  unfold __iccom_queue_append_message
  refine finalize_tail_invariant sz _
    (append_loop_invariant sz channel (2 * data.length + 2) _ data ?_ hsz hb)
    hsz
  split
  · exact enqueue_new_invariant sz st hinv hsz
  · exact hinv

/-- The freshly initialized engine satisfies the TX queue invariant. -/
theorem init_state_invariant (sz : Nat) (last_rx : Int) (hsz : 12 ≤ sz) :
    tx_queue_invariant sz (iccom_init_state sz last_rx) := by
  have hq : (iccom_init_state sz last_rx).tx_data_packages
      = [__iccom_package_make_empty
          (__iccom_package_set_id (__iccom_package_init sz)
            ICCOM_INITIAL_PACKAGE_ID)] := by
    unfold iccom_init_state __iccom_enqueue_empty_tx_data_package
      __iccom_enqueue_new_tx_data_package __iccom_have_packages
      __iccom_get_next_package_id
    simp [updateLast]
  have hwid := pkg_wf_set_id sz (__iccom_package_init sz)
    ICCOM_INITIAL_PACKAGE_ID (pkg_wf_package_init sz hsz) hsz
  obtain ⟨hw2, -⟩ := make_empty_wf_valid sz
    (__iccom_package_set_id (__iccom_package_init sz)
      ICCOM_INITIAL_PACKAGE_ID) hwid.1 hwid.2.2 hsz
  refine ⟨?_, ?_, ?_⟩
  · rw [hq]
    simp
  · intro p hp
    rw [hq] at hp
    have hps := List.mem_singleton.mp hp
    subst hps
    exact hw2
  · intro p hp
    rw [hq] at hp
    simp at hp

/-- C6 — For every sequence of TX queue operations after engine init
(append of consumer messages, queue step-forward on ACK, enqueueing of new
packages), the TX queue invariant holds between operations: the queue
contains at least one package, every queued package is well-formed, and
every package other than the tail is finalized and passes package
validation (`__iccom_verify_package_data` returns the non-negative Valid
result).  `sz` is the configured frame size `ICCOM_DATA_XFER_SIZE_BYTES`
(at least the 12-byte minimum: package overhead plus one minimal packet);
consumer message bytes are byte-valued as in C. -/
theorem tx_queue_invariant_holds (sz : Nat) (st : iccom_dev)
    (hsz : 12 ≤ sz) (h : tx_reach sz st) : tx_queue_invariant sz st := by
  induction h with
  | init last_rx => exact init_state_invariant sz last_rx hsz
  | append st data channel h hb ih =>
      exact append_message_invariant sz st data channel ih hsz hb
  | step st h ih => exact step_forward_invariant sz st ih hsz
  | enqueue st h ih => exact enqueue_new_invariant sz st ih hsz

/-- Witness for the C6 theorem: the initialized 64-byte-frame engine after
posting a 3-byte message on channel 5 and one ACK-driven queue step. -/
theorem tx_queue_invariant_holds_witness :
    12 ≤ 64
    ∧ tx_queue_invariant 64
        (__iccom_queue_step_forward
          (__iccom_queue_append_message 64 (iccom_init_state 64 0)
            [1, 2, 3] 5)).2 :=
  ⟨by decide
   , tx_queue_invariant_holds 64 _ (by decide)
      (tx_reach.step _
        (tx_reach.append _ [1, 2, 3] 5 (tx_reach.init 0) (by decide)))⟩

end ICCom
